import Mathlib

/-!
# Credential transport (`skymarshal/token/middleware.go`)

A shallow embedding of the cookie middleware of `skymarshal/token`:
`UnsetToken`, `SetToken`, `GetToken`, `UnsetCSRFToken`, `SetCSRFToken` and
`GetCSRFToken`, together with the part of `net/http` they call
(`http.SetCookie`, `(*http.Request).Cookie`).

Modelling conventions.

* A Go `string` is a sequence of bytes, `len` is the number of bytes and
  `s[:n]` / `s[n:]` are `List.take` / `List.drop`.
* A `time.Time` is an instant counted in nanoseconds from the zero time, so the
  zero value of the type is `0`.
* `http.ResponseWriter` is represented by the cookies given to `http.SetCookie`
  so far, oldest first. What `http.SetCookie` puts in the header for a cookie is
  its method `String`: `Cookie.String` gives that `Set-Cookie` line, attribute by
  attribute, with the bytes `net/http` drops from a value dropped and no
  `Expires` before the year 1601; `sentLines` gives the lines of a response.
* `*http.Request` is represented by the cookies `net/http` reads from its header,
  in header order; `Cookie` returns the first one of the given name, or
  `ErrNoCookie`.
* The loops `for i := 0; i < NumCookies; i++` are recursive functions on the
  number of iterations left, which is `NumCookies - i`.
-/

namespace token

/-- A Go `byte`. -/
abbrev byte := Fin 256

/-- A Go `string`: an immutable sequence of bytes. -/
abbrev GoString := List byte

/-- A Go string literal (the literals of this package are ASCII). -/
def lit (s : String) : GoString := s.toList.map (fun c => Fin.ofNat c.toNat)

/-- A Go `time.Time`, as an instant counted in nanoseconds from the zero time. -/
abbrev Time := Int

/-- The fields of `http.Cookie` that the package sets or reads. -/
structure Cookie where
  Name : GoString
  Value : GoString := []
  Path : GoString := []
  Expires : Time := 0
  MaxAge : Int := 0
  Secure : Bool := false
  HttpOnly : Bool := false
deriving DecidableEq, Repr

/-- The cookies given to `http.SetCookie` for a response, oldest first. -/
abbrev ResponseWriter := List Cookie

/-- The cookies read from the header of a request, in header order. -/
abbrev Request := List Cookie

/-- The Go function `http.SetCookie`, as the cookie it is given; the line it adds to
the header is `Cookie.String`. -/
def SetCookie (w : ResponseWriter) (cookie : Cookie) : ResponseWriter :=
  w ++ [cookie]

/-- The Go method `(*http.Request).Cookie`: the first cookie of that name, or
`none` for `ErrNoCookie`. -/
def Request.Cookie (r : Request) (name : GoString) : Option Cookie :=
  r.find? (fun c => c.Name = name)

/-- The Go function `strconv.Itoa`: the decimal representation of an `int`. -/
def Itoa (i : Int) : GoString :=
  match i with
  | Int.ofNat n => lit (Nat.repr n)
  | Int.negSucc n => lit "-" ++ lit (Nat.repr (n + 1))

/-- The receiver type `middleware`. -/
structure middleware where
  secureCookies : Bool
deriving DecidableEq, Repr

def NewMiddleware (secureCookies : Bool) : middleware :=
  { secureCookies := secureCookies }

def NumCookies : Nat := 15
def authCookieName : GoString := lit "skymarshal_auth"
def csrfCookieName : GoString := lit "skymarshal_csrf"
def maxCookieSize : Nat := 4000

/-- The loop of `UnsetToken`, entered at index `i` with `n` iterations left. -/
def UnsetToken.loop (m : middleware) : Nat → Nat → ResponseWriter → ResponseWriter
  | 0, _, w => w
  | n + 1, i, w =>
    UnsetToken.loop m n (i + 1)
      (SetCookie w
        { Name := authCookieName ++ Itoa i
          Path := lit "/"
          MaxAge := -1
          Secure := m.secureCookies
          HttpOnly := true })

def UnsetToken (m : middleware) (w : ResponseWriter) : ResponseWriter :=
  UnsetToken.loop m NumCookies 0 w

/-- The loop of `SetToken`, entered at index `i` with `n` iterations left and
`tokenStr` still to write. The `else` branch is the one that ends in `break`. -/
def SetToken.loop (m : middleware) (expiry : Time) :
    Nat → Nat → GoString → ResponseWriter → ResponseWriter
  | 0, _, _, w => w
  | n + 1, i, tokenStr, w =>
    if tokenStr.length > maxCookieSize then
      SetToken.loop m expiry n (i + 1) (tokenStr.drop maxCookieSize)
        (SetCookie w
          { Name := authCookieName ++ Itoa i
            Value := tokenStr.take maxCookieSize
            Path := lit "/"
            Expires := expiry
            HttpOnly := true
            Secure := m.secureCookies })
    else
      SetCookie w
        { Name := authCookieName ++ Itoa i
          Value := tokenStr
          Path := lit "/"
          Expires := expiry
          HttpOnly := true
          Secure := m.secureCookies }

/-- The method `SetToken`: the response after the call and the returned `error`
(`none` for `nil`). -/
def SetToken (m : middleware) (w : ResponseWriter) (tokenStr : GoString) (expiry : Time) :
    ResponseWriter × Option GoString :=
  if tokenStr.length > maxCookieSize * NumCookies then
    (w, some (lit "token is too long to fit in cookies"))
  else
    (SetToken.loop m expiry NumCookies 0 tokenStr w, none)

/-- The loop of `GetToken`, entered at index `i` with `n` iterations left. -/
def GetToken.loop (r : Request) : Nat → Nat → GoString → GoString
  | 0, _, authCookie => authCookie
  | n + 1, i, authCookie =>
    match r.Cookie (authCookieName ++ Itoa i) with
    | some cookie => GetToken.loop r n (i + 1) (authCookie ++ cookie.Value)
    | none => GetToken.loop r n (i + 1) authCookie

def GetToken (_m : middleware) (r : Request) : GoString :=
  GetToken.loop r NumCookies 0 []

def UnsetCSRFToken (m : middleware) (w : ResponseWriter) : ResponseWriter :=
  SetCookie w
    { Name := csrfCookieName
      Path := lit "/"
      MaxAge := -1
      Secure := m.secureCookies
      HttpOnly := true }

def SetCSRFToken (m : middleware) (w : ResponseWriter) (csrfToken : GoString) (expiry : Time) :
    ResponseWriter × Option GoString :=
  (SetCookie w
    { Name := csrfCookieName
      Value := csrfToken
      Path := lit "/"
      Expires := expiry
      Secure := m.secureCookies
      HttpOnly := true }, none)

def GetCSRFToken (_m : middleware) (r : Request) : GoString :=
  match r.Cookie csrfCookieName with
  | none => []
  | some cookie => cookie.Value

/-! ### What `net/http` sends for a cookie and reads back -/

/-- The function `validCookieValueByte` of `net/http`. -/
def validCookieValueByte (b : byte) : Bool :=
  32 ≤ b.val && b.val < 127 && b.val != 34 && b.val != 59 && b.val != 92

/-- The function `sanitizeCookieValue` of `net/http`: drops the bytes a value may not
hold and puts double quotes around what is left when it holds a space or a comma. -/
def sanitizeCookieValue (v : GoString) : GoString :=
  let v := v.filter validCookieValueByte
  if v.length = 0 then v
  else if (32 : byte) ∈ v ∨ (44 : byte) ∈ v then [34] ++ v ++ [34]
  else v

/-- The function `parseCookieValue` of `net/http`, double quotes allowed: strips the
quotes and refuses a value with a byte it may not hold. -/
def parseCookieValue (raw : GoString) : Option GoString :=
  let raw :=
    if 1 < raw.length ∧ raw.head? = some 34 ∧ raw.getLast? = some 34 then
      (raw.drop 1).dropLast
    else raw
  if raw.all validCookieValueByte then some raw else none

/-- The token bytes of HTTP (`httpguts.IsTokenRune`). -/
def isTokenByte (b : byte) : Bool :=
  (48 ≤ b.val && b.val ≤ 57) || (65 ≤ b.val && b.val ≤ 90) || (97 ≤ b.val && b.val ≤ 122) ||
    [33, 35, 36, 37, 38, 39, 42, 43, 45, 46, 94, 95, 96, 124, 126].contains b.val

/-- The function `isCookieNameValid` of `net/http`. -/
def isCookieNameValid (raw : GoString) : Bool :=
  raw.length != 0 && raw.all isTokenByte

/-- The function `sanitizeCookieName` of `net/http`: line breaks become `-`. -/
def sanitizeCookieName (n : GoString) : GoString :=
  n.map (fun b => if b = 10 ∨ b = 13 then 45 else b)

/-- The function `sanitizeCookiePath` of `net/http`. -/
def sanitizeCookiePath (v : GoString) : GoString :=
  v.filter (fun b => 32 ≤ b.val && b.val < 127 && b.val != 59)

/-- The first instant of the year 1601: 584388 days after the zero time. -/
def year1601 : Time := 584388 * 86400 * 1000000000

/-- The function `validCookieExpires` of `net/http`: the year is 1601 or later. -/
def validCookieExpires (t : Time) : Bool := decide (year1601 ≤ t)

/-- One `Set-Cookie` line, attribute by attribute: `Path` is empty, `Expires` and
`MaxAge` are `none` when the attribute is not there. `Expires` is a date to the
second. -/
structure SetCookieLine where
  Name : GoString
  Value : GoString
  Path : GoString
  Expires : Option Time
  MaxAge : Option Int
  HttpOnly : Bool
  Secure : Bool
deriving DecidableEq, Repr

/-- The method `(*Cookie).String` of `net/http`: `none` for the empty string, which
`http.SetCookie` does not add to the header. -/
def Cookie.String (c : Cookie) : Option SetCookieLine :=
  if isCookieNameValid c.Name then
    some
      { Name := sanitizeCookieName c.Name
        Value := sanitizeCookieValue c.Value
        Path := if c.Path.length > 0 then sanitizeCookiePath c.Path else []
        Expires :=
          if validCookieExpires c.Expires then
            some (c.Expires / 1000000000 * 1000000000)
          else none
        MaxAge :=
          if c.MaxAge > 0 then some c.MaxAge
          else if c.MaxAge < 0 then some 0
          else none
        HttpOnly := c.HttpOnly
        Secure := c.Secure }
  else none

/-- The `Set-Cookie` lines of a response, oldest first. -/
def sentLines (w : ResponseWriter) : List SetCookieLine :=
  w.filterMap Cookie.String

/-! ### The transport medium

The slots live in the cookie store of the client, which is not part of the
package. It is modelled after RFC 6265 and `net/http/cookiejar`: a line replaces
the slot of its name, and the slot is dropped at once when the line has
`Max-Age=0`, or has no `Max-Age` and an `Expires` that is not after the instant
the store is at; a line with neither is kept. The package writes every slot with
path `/` and no domain, so a slot is known by its name. The store stays at one
instant, `now`: it executes the lines and sends the next request at that
instant. The connection is one over which the store takes and returns the slots
(a slot sent with `Secure` needs HTTPS). -/

/-- A slot of the store: a name and the value as it was sent. -/
structure Slot where
  Name : GoString
  Value : GoString
deriving DecidableEq, Repr

/-- The store of the medium at the instant `now`. -/
structure SlotState where
  now : Time
  slots : List Slot
deriving DecidableEq, Repr

/-- A line whose slot the store drops at once. -/
def SetCookieLine.expired (l : SetCookieLine) (now : Time) : Bool :=
  match l.MaxAge with
  | some d => decide (d ≤ 0)
  | none =>
    match l.Expires with
    | some t => decide (t ≤ now)
    | none => false

/-- The store executes one `Set-Cookie` line. -/
def SlotState.store (s : SlotState) (l : SetCookieLine) : SlotState :=
  { now := s.now
    slots :=
      if l.expired s.now then s.slots.filter (fun d => d.Name ≠ l.Name)
      else { Name := l.Name, Value := l.Value } :: s.slots.filter (fun d => d.Name ≠ l.Name) }

/-- The store executes the lines of a response, oldest first. -/
def SlotState.receive (s : SlotState) (w : ResponseWriter) : SlotState :=
  (sentLines w).foldl SlotState.store s

/-- What `readCookies` of `net/http` makes of one `name=value` of a `Cookie` header:
nothing when the name or the value is not valid. -/
def readCookie (d : Slot) : Option Cookie :=
  if isCookieNameValid d.Name then
    (parseCookieValue d.Value).map (fun v => { Name := d.Name, Value := v })
  else none

/-- The function `readCookies` of `net/http` on the slots a request carries. -/
def readCookies (ds : List Slot) : Request :=
  ds.filterMap readCookie

/-- The next request carries every slot of the store. -/
def SlotState.request (s : SlotState) : Request :=
  readCookies s.slots

/-- The value a request carries for credential slot `i`, empty when the slot is
absent. -/
def slotValue (r : Request) (i : Nat) : GoString :=
  match r.Cookie (authCookieName ++ Itoa i) with
  | some cookie => cookie.Value
  | none => []

/-! ### Closed forms used to state the lemmas -/

/-- The number of chunks of a token: `len / maxCookieSize` rounded up, and one for
the empty token. -/
def chunkCount (T : GoString) : Nat :=
  max 1 ((T.length + (maxCookieSize - 1)) / maxCookieSize)

/-- The instruction for index `j` of token `T`: it carries the `j`-th chunk. -/
def authSlot (m : middleware) (expiry : Time) (T : GoString) (j : Nat) : Cookie :=
  { Name := authCookieName ++ Itoa (j : Int)
    Value := (T.drop (maxCookieSize * j)).take maxCookieSize
    Path := lit "/"
    Expires := expiry
    HttpOnly := true
    Secure := m.secureCookies }

/-- The instruction of `UnsetToken` for index `j`. -/
def unsetSlot (m : middleware) (j : Nat) : Cookie :=
  { Name := authCookieName ++ Itoa (j : Int)
    Value := []
    Path := lit "/"
    Expires := 0
    MaxAge := -1
    Secure := m.secureCookies
    HttpOnly := true }

/-- The line sent for `authSlot m expiry T j`. -/
def authLine (m : middleware) (expiry : Time) (T : GoString) (j : Nat) : SetCookieLine :=
  { Name := authCookieName ++ Itoa (j : Int)
    Value := sanitizeCookieValue ((T.drop (maxCookieSize * j)).take maxCookieSize)
    Path := lit "/"
    Expires :=
      if validCookieExpires expiry then some (expiry / 1000000000 * 1000000000) else none
    MaxAge := none
    HttpOnly := true
    Secure := m.secureCookies }

/-- The line sent for `unsetSlot m j`. -/
def unsetLine (m : middleware) (j : Nat) : SetCookieLine :=
  { Name := authCookieName ++ Itoa (j : Int)
    Value := []
    Path := lit "/"
    Expires := none
    MaxAge := some 0
    HttpOnly := true
    Secure := m.secureCookies }

/-- A request that carries exactly the slots sent for the cookies of `w`. -/
def carrying (w : ResponseWriter) : Request :=
  readCookies ((sentLines w).map (fun l => { Name := l.Name, Value := l.Value }))

/-- The store at the instant `now` drops at once a slot written with `expiry`: the
`Expires` date is sent and is not after `now`. -/
def expiryPassed (expiry now : Time) : Bool :=
  validCookieExpires expiry && decide (expiry / 1000000000 * 1000000000 ≤ now)

/-- The cookie `net/http` reads back from the slot sent for index `j` of token `T`. -/
def authRead (T : GoString) (j : Nat) : Cookie :=
  { Name := authCookieName ++ Itoa (j : Int)
    Value := ((T.drop (maxCookieSize * j)).take maxCookieSize).filter validCookieValueByte }

/-- The line sent for the cookie of `SetCSRFToken`. -/
def csrfLine (m : middleware) (csrfToken : GoString) (expiry : Time) : SetCookieLine :=
  { Name := csrfCookieName
    Value := sanitizeCookieValue csrfToken
    Path := lit "/"
    Expires :=
      if validCookieExpires expiry then some (expiry / 1000000000 * 1000000000) else none
    MaxAge := none
    HttpOnly := true
    Secure := m.secureCookies }

/-- The line sent for the cookie of `UnsetCSRFToken`. -/
def csrfUnsetLine (m : middleware) : SetCookieLine :=
  { Name := csrfCookieName
    Value := []
    Path := lit "/"
    Expires := none
    MaxAge := some 0
    HttpOnly := true
    Secure := m.secureCookies }

end token

/-!
# Server composition (`skymarshal/skymarshal.go`)

A shallow embedding of `NewServer` and `loadOrGenerateSigningKey`.

What `NewServer` calls in other packages is not part of these two files and is
taken as a parameter, `Env`: the key generator of `crypto/rsa`, `sha256.Sum256`,
`Logger.Session`, `token.NewVerifier` and the constructors of the three
sub-handlers. The values they return are opaque handles. A `*url.URL` is
represented by the string its method `String` returns, a `*big.Int` by an
integer, and an `error` by its message.

`http.ServeMux` is the multiplexer of `net/http`: a map from pattern to entry for
the exact matches and a list of the patterns ending in `/`, longest first, for
the prefix matches. `ServeMux.matchPath` is its lookup (the method `match`) and
`ServeMux.Handler` its dispatch (the method `Handler`, which `ServeHTTP` calls):
the path is cleaned first, and the multiplexer answers a redirect itself for a
path that is not clean and for a path that lacks the final `/` of a registered
pattern. The target of a redirect is given by its path.

The parts of the body of `NewServer` are named after the local variable or the
argument they are: `NewServer.clientSecret` (lines 41-42), `NewServer.issuerURL`
(44-45), `NewServer.redirectURL` (46), `NewServer.skyConfig` (51-62),
`NewServer.dexConfig` (67-90), `NewServer.legacyConfig` (95-97) and
`NewServer.handler` (102-107).
-/

namespace skymarshal

open token (GoString byte lit middleware NewMiddleware)

/-- A Go `error` that is not `nil`, by its message. -/
abbrev error := GoString

/-- The type `rsa.PrivateKey`: modulus `N`, public exponent `E`, private exponent
`D` and the prime factors of `N`. -/
structure rsa.PrivateKey where
  N : Int
  E : Int
  D : Int
  Primes : List Int
deriving DecidableEq, Repr

/-- The type `flag.PrivateKey`, which embeds a `*rsa.PrivateKey` (`none` for `nil`). -/
structure flag.PrivateKey where
  PrivateKey : Option rsa.PrivateKey
deriving DecidableEq, Repr

/-- The method `(*big.Int).Bytes`: the absolute value, big-endian. -/
def big.Int.Bytes (x : Int) : GoString :=
  (Nat.digits 256 x.natAbs).reverse.map (fun d => Fin.ofNat d)

/-- One lower-case hexadecimal digit. -/
def hexDigit (n : Nat) : byte := (lit "0123456789abcdef").getD n 0

/-- The call `fmt.Sprintf("%x", b)` for a byte slice `b`: two digits for each byte. -/
def Sprintf_x (b : GoString) : GoString :=
  b.flatMap (fun x => [hexDigit (x.val / 16), hexDigit (x.val % 16)])

structure Logger where
  id : Nat
deriving DecidableEq, Repr

structure HTTPClient where
  id : Nat
deriving DecidableEq, Repr

structure Storage where
  id : Nat
deriving DecidableEq, Repr

structure Verifier where
  id : Nat
deriving DecidableEq, Repr

structure SkyServer where
  id : Nat
deriving DecidableEq, Repr

/-- An `http.Handler` returned by one of the constructors. -/
structure Handler where
  id : Nat
deriving DecidableEq, Repr

/-- The fields of `skycmd.AuthFlags` that `NewServer` reads, and the others, which
it hands to the issuer without looking at them. -/
structure AuthFlags where
  SecureCookies : Bool
  SigningKey : Option flag.PrivateKey
  Other : List GoString
deriving DecidableEq, Repr

structure Config where
  Logger : Logger
  Flags : AuthFlags
  ExternalURL : GoString
  HTTPClient : HTTPClient
  Storage : Storage
deriving DecidableEq, Repr

/-- The fields of `skyserver.SkyConfig` that `NewServer` sets. -/
structure SkyConfig where
  Logger : Logger
  TokenVerifier : Verifier
  TokenMiddleware : middleware
  SigningKey : rsa.PrivateKey
  DexIssuerURL : GoString
  DexClientID : GoString
  DexClientSecret : GoString
  DexRedirectURL : GoString
  DexHTTPClient : HTTPClient
  SecureCookies : Bool
deriving DecidableEq, Repr

structure DexClient where
  ClientID : GoString
  ClientSecret : GoString
  RedirectURL : GoString := []
deriving DecidableEq, Repr

/-- The fields of `dexserver.DexConfig` that `NewServer` sets. -/
structure DexConfig where
  Logger : Logger
  Flags : AuthFlags
  IssuerURL : GoString
  WebHostURL : GoString
  SigningKey : rsa.PrivateKey
  Storage : Storage
  Clients : List DexClient
deriving DecidableEq, Repr

structure LegacyConfig where
  Logger : Logger
deriving DecidableEq, Repr

/-- What `NewServer` calls outside this file. -/
structure Env where
  /-- The call `rsa.GenerateKey(rand.Reader, bits)`, as it turns out in this run. -/
  GenerateKey : Nat → Except error rsa.PrivateKey
  /-- The function `sha256.Sum256`. -/
  Sum256 : GoString → GoString
  /-- The method `Session` of `lager.Logger`. -/
  Session : Logger → GoString → Logger
  /-- The function `token.NewVerifier`. -/
  NewVerifier : GoString → GoString → Verifier
  NewSkyServer : SkyConfig → Except error SkyServer
  NewSkyHandler : SkyServer → Handler
  NewDexServer : DexConfig → Except error Handler
  NewLegacyServer : LegacyConfig → Except error Handler

/-! ### `http.ServeMux` -/

structure muxEntry where
  h : Handler
  pattern : GoString
deriving DecidableEq, Repr

/-- The two fields of `http.ServeMux` that the lookup reads: `m`, the map from
pattern to entry, as the list of its entries, and `es`, the entries whose
pattern ends in `/`, from longest to shortest. -/
structure ServeMux where
  m : List muxEntry
  es : List muxEntry
deriving DecidableEq, Repr

def NewServeMux : ServeMux := { m := [], es := [] }

/-- The function `appendSorted` of `net/http`: inserts before the first entry with a
shorter pattern. -/
def appendSorted : List muxEntry → muxEntry → List muxEntry
  | [], e => [e]
  | x :: es, e =>
    if x.pattern.length < e.pattern.length then e :: x :: es
    else x :: appendSorted es e

/-- The method `(*ServeMux).Handle`, for a pattern that is not registered yet. -/
def ServeMux.Handle (mux : ServeMux) (pattern : GoString) (handler : Handler) : ServeMux :=
  let e : muxEntry := { h := handler, pattern := pattern }
  { m := mux.m ++ [e]
    es := if pattern.getLast? = some 47 then appendSorted mux.es e else mux.es }

/-- The method `(*ServeMux).match`: the entry of the exact match if there is one,
else the first entry of `es` whose pattern is a prefix of the path. -/
def ServeMux.matchPath (mux : ServeMux) (path : GoString) : Option muxEntry :=
  match mux.m.find? (fun e => e.pattern = path) with
  | some v => some v
  | none => mux.es.find? (fun e => e.pattern.isPrefixOf path)

/-- The elements of a path between its slashes. -/
def splitSlash : GoString → List GoString
  | [] => [[]]
  | b :: p =>
    if b = 47 then [] :: splitSlash p
    else
      match splitSlash p with
      | [] => [[b]]
      | e :: es => (b :: e) :: es

/-- One element of a rooted path in `path.Clean`, the elements kept so far being
`kept`, last first: an empty element and `.` are skipped, `..` removes the last
element kept, if there is one. -/
def cleanStep (kept : List GoString) (e : GoString) : List GoString :=
  if e = [] ∨ e = lit "." then kept
  else if e = lit ".." then kept.drop 1
  else e :: kept

/-- The function `path.Clean` on a rooted path. -/
def cleanRooted (p : GoString) : GoString :=
  [47] ++ List.intercalate [47] ((splitSlash p).foldl cleanStep []).reverse

/-- The function `cleanPath` of `net/http`. -/
def cleanPath (p : GoString) : GoString :=
  if p = [] then lit "/"
  else
    let p := if p.head? ≠ some 47 then [47] ++ p else p
    let np := cleanRooted p
    if p.getLast? = some 47 ∧ np ≠ lit "/" then
      if p.length = np.length + 1 ∧ np.isPrefixOf p then p else np ++ [47]
    else np

/-- The fields of `*http.Request` the multiplexer reads: the method, the host (of the
URL for `CONNECT`, of the request without its port otherwise) and the path of the
URL. -/
structure Request where
  Method : GoString
  Host : GoString
  Path : GoString
deriving DecidableEq, Repr

/-- Who answers a request: a handler registered with `Handle`, or the multiplexer
itself, with a redirect to a path or with `NotFound`. -/
inductive Dispatch where
  | registered (h : Handler)
  | redirect (path : GoString)
  | notFound
deriving DecidableEq, Repr

/-- The field `hosts` of `http.ServeMux`: some pattern does not begin with `/`. -/
def ServeMux.hosts (mux : ServeMux) : Bool :=
  mux.m.any (fun e => e.pattern.head? ≠ some 47)

/-- The method `(*ServeMux).shouldRedirectRLocked`: neither `path` nor `host + path`
is registered, and one of them is with a `/` added. -/
def ServeMux.shouldRedirect (mux : ServeMux) (host path : GoString) : Bool :=
  if mux.m.any (fun e => e.pattern = path) || mux.m.any (fun e => e.pattern = host ++ path) then
    false
  else if path.length = 0 then false
  else if mux.m.any (fun e => e.pattern = path ++ [47]) ||
      mux.m.any (fun e => e.pattern = host ++ path ++ [47]) then
    path.getLast? != some 47
  else false

/-- The method `(*ServeMux).handler`. -/
def ServeMux.handler (mux : ServeMux) (host path : GoString) : Dispatch :=
  match (if mux.hosts then mux.matchPath (host ++ path) else none) with
  | some e => .registered e.h
  | none =>
    match mux.matchPath path with
    | some e => .registered e.h
    | none => .notFound

/-- The method `(*ServeMux).Handler`. -/
def ServeMux.Handler (mux : ServeMux) (r : Request) : Dispatch :=
  if r.Method = lit "CONNECT" then
    if mux.shouldRedirect r.Host r.Path then .redirect (r.Path ++ [47])
    else mux.handler r.Host r.Path
  else
    let path := cleanPath r.Path
    if mux.shouldRedirect r.Host path then .redirect (path ++ [47])
    else if path ≠ r.Path then .redirect path
    else mux.handler r.Host r.Path

structure Server where
  Handler : ServeMux
deriving DecidableEq, Repr

/-! ### `NewServer` -/

def loadOrGenerateSigningKey (env : Env) (keyFlag : Option flag.PrivateKey) :
    Except error rsa.PrivateKey :=
  match keyFlag with
  | some k =>
    match k.PrivateKey with
    | some key => .ok key
    | none => env.GenerateKey 2048
  | none => env.GenerateKey 2048

def NewServer.clientSecret (env : Env) (signingKey : rsa.PrivateKey) : GoString :=
  Sprintf_x (env.Sum256 (big.Int.Bytes signingKey.D))

def NewServer.issuerURL (config : Config) : GoString :=
  config.ExternalURL ++ lit "/sky/issuer"

def NewServer.redirectURL (config : Config) : GoString :=
  config.ExternalURL ++ lit "/sky/callback"

def NewServer.skyConfig (env : Env) (config : Config) (signingKey : rsa.PrivateKey) :
    SkyConfig :=
  { Logger := env.Session config.Logger (lit "sky")
    TokenVerifier := env.NewVerifier (lit "skymarshal") (NewServer.issuerURL config)
    TokenMiddleware := NewMiddleware config.Flags.SecureCookies
    SigningKey := signingKey
    DexIssuerURL := NewServer.issuerURL config
    DexClientID := lit "skymarshal"
    DexClientSecret := NewServer.clientSecret env signingKey
    DexRedirectURL := NewServer.redirectURL config
    DexHTTPClient := config.HTTPClient
    SecureCookies := config.Flags.SecureCookies }

def NewServer.dexConfig (env : Env) (config : Config) (signingKey : rsa.PrivateKey) :
    DexConfig :=
  { Logger := env.Session config.Logger (lit "dex")
    Flags := config.Flags
    IssuerURL := NewServer.issuerURL config
    WebHostURL := lit "/sky/issuer"
    SigningKey := signingKey
    Storage := config.Storage
    Clients :=
      [ { ClientID := lit "skymarshal"
          ClientSecret := NewServer.clientSecret env signingKey
          RedirectURL := NewServer.redirectURL config },
        { ClientID := lit "fly"
          ClientSecret := lit "Zmx5Cg=="
          RedirectURL := NewServer.redirectURL config },
        { ClientID := lit "client-id"
          ClientSecret := lit "client-secret" } ] }

def NewServer.legacyConfig (env : Env) (config : Config) : LegacyConfig :=
  { Logger := env.Session config.Logger (lit "legacy") }

def NewServer.handler (dexServer skyHandler legacyServer : Handler) : ServeMux :=
  ((((NewServeMux.Handle (lit "/sky/issuer/") dexServer).Handle
    (lit "/sky/") skyHandler).Handle
    (lit "/auth/") legacyServer).Handle
    (lit "/login") legacyServer).Handle
    (lit "/logout") legacyServer

def NewServer (env : Env) (config : Config) : Except error Server :=
  match loadOrGenerateSigningKey env config.Flags.SigningKey with
  | .error err => .error err
  | .ok signingKey =>
    match env.NewSkyServer (NewServer.skyConfig env config signingKey) with
    | .error err => .error err
    | .ok skyServer =>
      match env.NewDexServer (NewServer.dexConfig env config signingKey) with
      | .error err => .error err
      | .ok dexServer =>
        match env.NewLegacyServer (NewServer.legacyConfig env config) with
        | .error err => .error err
        | .ok legacyServer =>
          .ok { Handler :=
            NewServer.handler dexServer (env.NewSkyHandler skyServer) legacyServer }

/-! ### Values for the closed examples -/

/-- Collaborators that all succeed; the digest stands for itself. -/
def exampleEnv : Env :=
  { GenerateKey := fun _ => .error (lit "no entropy")
    Sum256 := fun b => b
    Session := fun l _ => l
    NewVerifier := fun _ _ => { id := 0 }
    NewSkyServer := fun _ => .ok { id := 1 }
    NewSkyHandler := fun _ => { id := 2 }
    NewDexServer := fun _ => .ok { id := 3 }
    NewLegacyServer := fun _ => .ok { id := 4 } }

/-- A small RSA key: `33 = 3 * 11` and `3 * 7 = 21`, which is 1 modulo 2 and 10. -/
def exampleKey : rsa.PrivateKey := { N := 33, E := 3, D := 7, Primes := [3, 11] }

/-- A configuration with `exampleKey` as the signing key. -/
def exampleConfig : Config :=
  { Logger := { id := 0 }
    Flags := { SecureCookies := true
               SigningKey := some { PrivateKey := some exampleKey }
               Other := [] }
    ExternalURL := lit "https://ci.example.com"
    HTTPClient := { id := 0 }
    Storage := { id := 0 } }

end skymarshal

namespace token

/-! ## Lemmas -/

theorem SetCookie_eq (w : ResponseWriter) (c : Cookie) : SetCookie w c = w ++ [c] := rfl

/-- The instructions `SetToken.loop` adds do not depend on the ones already there. -/
theorem SetToken_loop_append (m : middleware) (expiry : Time) (n : Nat) :
    ∀ (i : Nat) (T : GoString) (w : ResponseWriter),
      SetToken.loop m expiry n i T w = w ++ SetToken.loop m expiry n i T [] := by
  induction n with
  | zero => intro i T w; simp [SetToken.loop]
  | succ n ih =>
    intro i T w
    simp only [SetToken.loop, SetCookie_eq]
    split
    · rw [ih (i + 1) _ (w ++ [_]), ih (i + 1) _ ([] ++ [_])]
      simp
    · simp

/-- Closed form of the loop of `SetToken` when the token fits in the iterations left. -/
theorem SetToken_loop_eq (m : middleware) (expiry : Time) (n : Nat) :
    ∀ (i : Nat) (T : GoString), T.length ≤ maxCookieSize * (n + 1) →
      SetToken.loop m expiry (n + 1) i T [] =
        (List.range (max 1 ((T.length + (maxCookieSize - 1)) / maxCookieSize))).map (fun j =>
          ({ Name := authCookieName ++ Itoa ((i + j : Nat) : Int)
             Value := (T.drop (maxCookieSize * j)).take maxCookieSize
             Path := lit "/"
             Expires := expiry
             HttpOnly := true
             Secure := m.secureCookies } : Cookie)) := by
  induction n with
  | zero =>
    intro i T h
    have hk : max 1 ((T.length + (maxCookieSize - 1)) / maxCookieSize) = 1 := by
      simp only [maxCookieSize] at h ⊢
      omega
    have hle : ¬ T.length > maxCookieSize := by
      simp only [maxCookieSize] at h ⊢
      omega
    rw [hk]
    simp only [SetToken.loop, if_neg hle, SetCookie_eq]
    simp [List.range_succ_eq_map, List.take_of_length_le (Nat.le_of_not_gt hle)]
  | succ n ih =>
    intro i T h
    by_cases hgt : T.length > maxCookieSize
    · have hd : (T.drop maxCookieSize).length ≤ maxCookieSize * (n + 1) := by
        simp only [List.length_drop, maxCookieSize] at h ⊢
        omega
      have hk : max 1 ((T.length + (maxCookieSize - 1)) / maxCookieSize) =
          max 1 (((T.drop maxCookieSize).length + (maxCookieSize - 1)) / maxCookieSize) + 1 := by
        simp only [List.length_drop, maxCookieSize] at hgt ⊢
        omega
      rw [SetToken.loop, if_pos hgt, SetToken_loop_append, ih (i + 1) _ hd, hk,
        List.range_succ_eq_map, SetCookie_eq]
      simp only [List.nil_append, List.singleton_append, List.map_cons, List.map_map,
        Nat.mul_zero, List.drop_zero, Nat.add_zero]
      congr 1
      apply List.map_congr_left
      intro j _
      simp only [Function.comp, List.drop_drop, Nat.succ_eq_add_one, Nat.mul_add, Nat.mul_one]
      rw [Nat.add_comm (maxCookieSize * j) maxCookieSize]
      have : i + 1 + j = i + (j + 1) := by omega
      rw [this]
    · have hk : max 1 ((T.length + (maxCookieSize - 1)) / maxCookieSize) = 1 := by
        simp only [maxCookieSize] at hgt ⊢
        omega
      rw [hk]
      simp only [SetToken.loop, if_neg hgt, SetCookie_eq]
      simp [List.range_succ_eq_map, List.take_of_length_le (Nat.le_of_not_gt hgt)]

/-- Consecutive chunks of size `c` put together give the string back. -/
theorem flatten_chunks (c : Nat) (k : Nat) :
    ∀ (T : GoString), T.length ≤ c * k →
      ((List.range k).map (fun j => (T.drop (c * j)).take c)).flatten = T := by
  induction k with
  | zero =>
    intro T h
    have : T = [] := List.eq_nil_of_length_eq_zero (by simpa using h)
    simp [this]
  | succ k ih =>
    intro T h
    have hd : (T.drop c).length ≤ c * k := by
      simp only [List.length_drop, Nat.mul_add, Nat.mul_one] at h ⊢
      omega
    have hstep : (List.map (fun j => List.take c (List.drop (c * j) T)) (List.map Nat.succ
        (List.range k))) = (List.range k).map (fun j => ((T.drop c).drop (c * j)).take c) := by
      rw [List.map_map]
      apply List.map_congr_left
      intro j _
      simp only [Function.comp, List.drop_drop, Nat.succ_eq_add_one, Nat.mul_add, Nat.mul_one]
      rw [Nat.add_comm]
    rw [List.range_succ_eq_map, List.map_cons, List.flatten_cons, hstep, ih _ hd]
    simp

/-- Closed form of the loop of `GetToken`. -/
theorem GetToken_loop_eq (r : Request) (n : Nat) :
    ∀ (i : Nat) (acc : GoString),
      GetToken.loop r n i acc = acc ++ ((List.range' i n).map (slotValue r)).flatten := by
  induction n with
  | zero => intro i acc; simp [GetToken.loop]
  | succ n ih =>
    intro i acc
    simp only [GetToken.loop, List.range'_succ, List.map_cons, List.flatten_cons, slotValue]
    cases h : r.Cookie (authCookieName ++ Itoa (i : Int)) with
    | none => simp [ih]
    | some c => simp [ih]

theorem GetToken_eq (m : middleware) (r : Request) :
    GetToken m r = ((List.range NumCookies).map (slotValue r)).flatten := by
  simp [GetToken, GetToken_loop_eq, List.range_eq_range']

/-- Closed form of the loop of `UnsetToken`. -/
theorem UnsetToken_loop_eq (m : middleware) (n : Nat) :
    ∀ (i : Nat) (w : ResponseWriter),
      UnsetToken.loop m n i w =
        w ++ (List.range' i n).map (fun j =>
          ({ Name := authCookieName ++ Itoa (j : Int)
             Value := []
             Path := lit "/"
             Expires := 0
             MaxAge := -1
             Secure := m.secureCookies
             HttpOnly := true } : Cookie)) := by
  induction n with
  | zero => intro i w; simp [UnsetToken.loop]
  | succ n ih =>
    intro i w
    simp [UnsetToken.loop, ih, SetCookie_eq, List.range'_succ]

/-- The credential slot names of the fifteen indices are pairwise distinct. -/
theorem authName_inj : ∀ i, i < NumCookies → ∀ j, j < NumCookies →
    authCookieName ++ Itoa (i : Int) = authCookieName ++ Itoa (j : Int) → i = j := by
  decide

/-- No credential slot name is the CSRF slot name. -/
theorem authName_ne_csrf (x : GoString) : authCookieName ++ x ≠ csrfCookieName := by
  intro h
  have h1 : (authCookieName ++ x)[11]? = authCookieName[11]? :=
    List.getElem?_append_left (by decide)
  rw [h] at h1
  revert h1
  decide

/-! ### What `net/http` keeps of a value and of a name -/

theorem parseCookieValue_quoted (f : GoString) (hall : f.all validCookieValueByte = true) :
    parseCookieValue ([34] ++ f ++ [34]) = some f := by
  have hc : 1 < ([34] ++ f ++ [34] : GoString).length ∧
      ([34] ++ f ++ [34] : GoString).head? = some 34 ∧
      ([34] ++ f ++ [34] : GoString).getLast? = some 34 :=
    ⟨by simp, by simp, List.getLast?_concat _⟩
  have h3 : (([34] ++ f ++ [34] : GoString).drop 1).dropLast = f := by simp
  simp only [parseCookieValue, if_pos hc, h3, hall, if_true]

theorem parseCookieValue_plain (f : GoString) (hall : f.all validCookieValueByte = true)
    (hhead : f.head? ≠ some 34) : parseCookieValue f = some f := by
  have hc : ¬ (1 < f.length ∧ f.head? = some 34 ∧ f.getLast? = some 34) :=
    fun h => hhead h.2.1
  simp only [parseCookieValue, if_neg hc, hall, if_true]

/-- Reading back what was sent for a value gives the value without the bytes a
cookie value may not hold. -/
theorem parse_sanitize (v : GoString) :
    parseCookieValue (sanitizeCookieValue v) = some (v.filter validCookieValueByte) := by
  have hall : (v.filter validCookieValueByte).all validCookieValueByte = true := by
    simp [List.all_eq_true]
  have hhead : (v.filter validCookieValueByte).head? ≠ some 34 := by
    intro h
    have hm := List.mem_of_mem_head? h
    have := (List.mem_filter.mp hm).2
    revert this
    decide
  simp only [sanitizeCookieValue]
  by_cases h0 : (v.filter validCookieValueByte).length = 0
  · rw [if_pos h0]
    exact parseCookieValue_plain _ hall hhead
  · rw [if_neg h0]
    by_cases hq : (32 : byte) ∈ v.filter validCookieValueByte ∨
        (44 : byte) ∈ v.filter validCookieValueByte
    · rw [if_pos hq]
      exact parseCookieValue_quoted _ hall
    · rw [if_neg hq]
      exact parseCookieValue_plain _ hall hhead

set_option maxRecDepth 100000 in
theorem isTokenByte_ne_break : ∀ b : byte, isTokenByte b = true → ¬ (b = 10 ∨ b = 13) := by
  decide

theorem sanitizeCookieName_valid (n : GoString) (h : isCookieNameValid n = true) :
    sanitizeCookieName n = n := by
  simp only [isCookieNameValid, Bool.and_eq_true, List.all_eq_true] at h
  unfold sanitizeCookieName
  conv => rhs; rw [← List.map_id n]
  apply List.map_congr_left
  intro b hb
  rw [if_neg (isTokenByte_ne_break b (h.2 b hb))]
  rfl

/-- A line has the name of its cookie, and the name is valid. -/
theorem Cookie_String_name (c : Cookie) (l : SetCookieLine) (h : Cookie.String c = some l) :
    l.Name = c.Name ∧ isCookieNameValid c.Name = true := by
  unfold Cookie.String at h
  by_cases hv : isCookieNameValid c.Name = true
  · rw [if_pos hv] at h
    cases h
    exact ⟨sanitizeCookieName_valid _ hv, hv⟩
  · rw [if_neg hv] at h
    cases h

theorem readCookie_name (d : Slot) (c : Cookie) (h : readCookie d = some c) :
    c.Name = d.Name := by
  unfold readCookie at h
  split at h
  · cases hp : parseCookieValue d.Value with
    | none => simp [hp] at h
    | some v =>
      simp only [hp, Option.map_some', Option.some.injEq] at h
      rw [← h]
  · cases h

/-! ### Looking a slot up in the store -/

/-- Looking a name up after the slots of another name were removed. -/
theorem Cookie_filter_ne (s : List Slot) (a b : GoString) :
    Request.Cookie (readCookies (s.filter (fun d => d.Name ≠ a))) b =
      if a = b then none else Request.Cookie (readCookies s) b := by
  induction s with
  | nil => simp [Request.Cookie, readCookies]
  | cons d s ih =>
    simp only [Request.Cookie, readCookies] at ih ⊢
    by_cases hda : d.Name = a
    · have hf : (d :: s).filter (fun d => d.Name ≠ a) = s.filter (fun d => d.Name ≠ a) := by
        simp [List.filter_cons, hda]
      rw [hf, ih]
      by_cases hab : a = b
      · simp [hab]
      · rw [if_neg hab, if_neg hab, List.filterMap_cons]
        cases hr : readCookie d with
        | none => rfl
        | some c =>
          have hc := readCookie_name d c hr
          have hcb : ¬ c.Name = b := by rw [hc, hda]; exact hab
          simp [List.find?_cons, hcb]
    · have hf : (d :: s).filter (fun d => d.Name ≠ a) =
          d :: s.filter (fun d => d.Name ≠ a) := by
        simp [List.filter_cons, hda]
      rw [hf, List.filterMap_cons, List.filterMap_cons]
      cases hr : readCookie d with
      | none => exact ih
      | some c =>
        have hc := readCookie_name d c hr
        by_cases hcb : c.Name = b
        · have hab : ¬ a = b := by
            intro h
            apply hda
            rw [← hc, hcb, h]
          simp [List.find?_cons, hcb, hab]
        · simp only [List.find?_cons, hcb, decide_False]
          exact ih

/-- Looking a name up after the store executed one line. -/
theorem Cookie_store (s : SlotState) (l : SetCookieLine) (name : GoString) :
    Request.Cookie (SlotState.store s l).request name =
      if l.Name = name then
        (if l.expired s.now then none else readCookie { Name := l.Name, Value := l.Value })
      else Request.Cookie s.request name := by
  unfold SlotState.request
  by_cases hx : l.expired s.now = true
  · have hs : (SlotState.store s l).slots = s.slots.filter (fun d => d.Name ≠ l.Name) := by
      unfold SlotState.store
      rw [if_pos hx]
    rw [hs, Cookie_filter_ne, if_pos hx]
  · have hs : (SlotState.store s l).slots =
        { Name := l.Name, Value := l.Value } :: s.slots.filter (fun d => d.Name ≠ l.Name) := by
      unfold SlotState.store
      rw [if_neg hx]
    rw [hs, if_neg hx]
    have hrest := Cookie_filter_ne s.slots l.Name name
    cases hr : readCookie { Name := l.Name, Value := l.Value } with
    | none =>
      have hcons : readCookies ({ Name := l.Name, Value := l.Value } ::
            s.slots.filter (fun d => d.Name ≠ l.Name)) =
          readCookies (s.slots.filter (fun d => d.Name ≠ l.Name)) := by
        simp only [readCookies, List.filterMap_cons, hr]
      rw [hcons, hrest]
    | some c =>
      have hc : c.Name = l.Name := readCookie_name _ c hr
      have hcons : readCookies ({ Name := l.Name, Value := l.Value } ::
            s.slots.filter (fun d => d.Name ≠ l.Name)) =
          c :: readCookies (s.slots.filter (fun d => d.Name ≠ l.Name)) := by
        simp only [readCookies, List.filterMap_cons, hr]
      rw [hcons]
      by_cases h : l.Name = name
      · have hcn : c.Name = name := hc.trans h
        rw [if_pos h]
        simp only [Request.Cookie, List.find?_cons, hcn, decide_True]
      · have hcn : ¬ c.Name = name := fun h' => h (hc.symm.trans h')
        rw [if_neg h]
        have hstep : Request.Cookie
            (c :: readCookies (s.slots.filter (fun d => d.Name ≠ l.Name))) name =
            Request.Cookie (readCookies (s.slots.filter (fun d => d.Name ≠ l.Name))) name := by
          simp only [Request.Cookie, List.find?_cons, hcn, decide_False]
        rw [hstep, hrest, if_neg h]

theorem store_now (s : SlotState) (l : SetCookieLine) : (SlotState.store s l).now = s.now := rfl

theorem foldl_store_now (ls : List SetCookieLine) :
    ∀ s : SlotState, (ls.foldl SlotState.store s).now = s.now := by
  induction ls with
  | nil => intro s; rfl
  | cons l ls ih => intro s; rw [List.foldl_cons, ih, store_now]

/-- Looking a name up after the store executed some lines: the last line of that
name decides, and without one the slot is as before. -/
theorem Cookie_foldl_store (s : SlotState) (ls : List SetCookieLine) (name : GoString) :
    Request.Cookie (ls.foldl SlotState.store s).request name =
      match ls.reverse.find? (fun l => l.Name = name) with
      | some l =>
        if l.expired s.now then none else readCookie { Name := l.Name, Value := l.Value }
      | none => Request.Cookie s.request name := by
  induction ls using List.reverseRecOn with
  | nil => simp
  | append_singleton ls l ih =>
    rw [List.foldl_append, List.foldl_cons, List.foldl_nil, Cookie_store, ih, foldl_store_now]
    by_cases h : l.Name = name
    · simp [List.find?_cons, h]
    · simp [List.find?_cons, h]

theorem receive_append (s : SlotState) (w w' : ResponseWriter) :
    SlotState.receive s (w ++ w') = SlotState.receive (SlotState.receive s w) w' := by
  simp [SlotState.receive, sentLines]

theorem receive_now (s : SlotState) (w : ResponseWriter) : (SlotState.receive s w).now = s.now :=
  foldl_store_now _ s

/-- Looking a name up after the store executed a response. -/
theorem Cookie_receive (s : SlotState) (w : ResponseWriter) (name : GoString) :
    Request.Cookie (SlotState.receive s w).request name =
      match (sentLines w).reverse.find? (fun l => l.Name = name) with
      | some l =>
        if l.expired s.now then none else readCookie { Name := l.Name, Value := l.Value }
      | none => Request.Cookie s.request name :=
  Cookie_foldl_store s (sentLines w) name

/-- Looking a credential slot name up in a list made of one entry for each index
below `k`, in any order. -/
theorem find?_authName {α : Type} (nm : α → GoString) (f : Nat → α)
    (hf : ∀ j, nm (f j) = authCookieName ++ Itoa (j : Int))
    (k : Nat) (hk : k ≤ NumCookies) (j : Nat) (hj : j < NumCookies)
    (l : List α) (hl : ∀ c, c ∈ l ↔ ∃ a, a < k ∧ f a = c) :
    l.find? (fun d => nm d = authCookieName ++ Itoa (j : Int)) =
      if j < k then some (f j) else none := by
  by_cases hjk : j < k
  · rw [if_pos hjk]
    cases hfind : l.find? (fun d => nm d = authCookieName ++ Itoa (j : Int)) with
    | none =>
      rw [List.find?_eq_none] at hfind
      have := hfind (f j) ((hl _).2 ⟨j, hjk, rfl⟩)
      simp [hf] at this
    | some d =>
      have hd := List.find?_some hfind
      obtain ⟨a, ha, rfl⟩ := (hl _).1 (List.mem_of_find?_eq_some hfind)
      simp only [hf, decide_eq_true_eq] at hd
      have := authName_inj a (by omega) j hj hd
      rw [this]
  · rw [if_neg hjk, List.find?_eq_none]
    intro x hx
    obtain ⟨a, ha, rfl⟩ := (hl _).1 hx
    simp only [hf, decide_eq_true_eq]
    intro h
    have := authName_inj a (by omega) j hj h
    omega

/-- `GetToken` when the first `k` credential slots hold `v` and the others `u`. -/
theorem GetToken_split (m : middleware) (r : Request) (k : Nat) (hk : k ≤ NumCookies)
    (v u : Nat → GoString)
    (hv : ∀ j, j < NumCookies → slotValue r j = if j < k then v j else u j) :
    GetToken m r = ((List.range k).map v).flatten ++
      ((List.range' k (NumCookies - k)).map u).flatten := by
  have hr : List.range NumCookies = List.range k ++ List.range' k (NumCookies - k) := by
    rw [List.range_eq_range', List.range_eq_range']
    have := List.range'_append_1 0 k (NumCookies - k)
    simp only [Nat.zero_add] at this
    rw [this]
    congr 1
    omega
  rw [GetToken_eq, hr, List.map_append, List.flatten_append]
  congr 2
  · apply List.map_congr_left
    intro j hj
    have hj' : j < k := by simpa using hj
    rw [hv j (by omega), if_pos hj']
  · apply List.map_congr_left
    intro j hj
    have hj' : k ≤ j ∧ j < NumCookies := by
      simp only [List.mem_range'_1] at hj
      omega
    rw [hv j hj'.2, if_neg (by omega)]

theorem capacity_eq : maxCookieSize * NumCookies = 60000 := by decide

theorem chunkCount_le (T : GoString) (h : T.length ≤ maxCookieSize * NumCookies) :
    chunkCount T ≤ NumCookies := by
  simp only [chunkCount, maxCookieSize, NumCookies] at h ⊢
  omega

theorem chunkCount_pos (T : GoString) : 0 < chunkCount T := by
  simp only [chunkCount]
  omega

/-- What `SetToken` does with a token that fits. -/
theorem SetToken_accept (m : middleware) (w : ResponseWriter) (T : GoString) (expiry : Time)
    (h : T.length ≤ maxCookieSize * NumCookies) :
    SetToken m w T expiry =
      (w ++ (List.range (chunkCount T)).map (authSlot m expiry T), none) := by
  have hn : NumCookies = 14 + 1 := rfl
  rw [SetToken, if_neg (Nat.not_lt.mpr h), SetToken_loop_append]
  have := SetToken_loop_eq m expiry 14 0 T (by rw [← hn]; exact h)
  rw [hn, this]
  simp only [Nat.zero_add, chunkCount]
  rfl

/-- What `SetToken` does with a token that does not fit. -/
theorem SetToken_reject (m : middleware) (w : ResponseWriter) (T : GoString) (expiry : Time)
    (h : maxCookieSize * NumCookies < T.length) :
    SetToken m w T expiry = (w, some (lit "token is too long to fit in cookies")) := by
  rw [SetToken, if_pos h]

theorem UnsetToken_eq (m : middleware) (w : ResponseWriter) :
    UnsetToken m w = w ++ (List.range NumCookies).map (unsetSlot m) := by
  rw [UnsetToken, UnsetToken_loop_eq, List.range_eq_range']
  rfl

theorem authSlot_value_length (m : middleware) (expiry : Time) (T : GoString) (j : Nat) :
    (authSlot m expiry T j).Value.length ≤ maxCookieSize := by
  simp only [authSlot, List.length_take]
  omega

theorem flatten_authSlot_values (m : middleware) (expiry : Time) (T : GoString) :
    (((List.range (chunkCount T)).map (authSlot m expiry T)).map Cookie.Value).flatten = T := by
  rw [List.map_map]
  have : (Cookie.Value ∘ authSlot m expiry T) =
      fun j => (T.drop (maxCookieSize * j)).take maxCookieSize := rfl
  rw [this]
  apply flatten_chunks
  simp only [chunkCount, maxCookieSize]
  omega

/-! ### The lines of the package -/

theorem authName_valid : ∀ j, j < NumCookies →
    isCookieNameValid (authCookieName ++ Itoa (j : Int)) = true := by
  decide

theorem csrfName_valid : isCookieNameValid csrfCookieName = true := by decide

theorem sanitizeCookiePath_root : sanitizeCookiePath (lit "/") = lit "/" := by decide

theorem filterMap_map_some {α β γ : Type} (f : α → β) (g : β → Option γ) (h : α → γ)
    (l : List α) (hl : ∀ x ∈ l, g (f x) = some (h x)) :
    (l.map f).filterMap g = l.map h := by
  induction l with
  | nil => rfl
  | cons x l ih =>
    rw [List.map_cons, List.filterMap_cons, hl x (List.mem_cons_self _ _),
      ih (fun y hy => hl y (List.mem_cons_of_mem _ hy)), List.map_cons]

/-- The line `http.SetCookie` sends for a cookie of `SetToken`. -/
theorem Cookie_String_authSlot (m : middleware) (expiry : Time) (T : GoString) (j : Nat)
    (hj : j < NumCookies) :
    Cookie.String (authSlot m expiry T j) = some (authLine m expiry T j) := by
  have hv := authName_valid j hj
  have hp : (lit "/").length > 0 := by decide
  simp only [Cookie.String, authSlot, authLine, hv, if_true, sanitizeCookieName_valid _ hv,
    sanitizeCookiePath_root, hp]
  rfl

/-- The line `http.SetCookie` sends for a cookie of `UnsetToken`. -/
theorem Cookie_String_unsetSlot (m : middleware) (j : Nat) (hj : j < NumCookies) :
    Cookie.String (unsetSlot m j) = some (unsetLine m j) := by
  have hv := authName_valid j hj
  have hp : (lit "/").length > 0 := by decide
  have he : validCookieExpires 0 = false := by decide
  simp only [Cookie.String, unsetSlot, unsetLine, hv, if_true, sanitizeCookieName_valid _ hv,
    sanitizeCookiePath_root, hp, he]
  rfl

theorem sentLines_authSlots (m : middleware) (expiry : Time) (T : GoString) (k : Nat)
    (hk : k ≤ NumCookies) :
    sentLines ((List.range k).map (authSlot m expiry T)) =
      (List.range k).map (authLine m expiry T) := by
  apply filterMap_map_some
  intro j hj
  exact Cookie_String_authSlot m expiry T j (by have := List.mem_range.mp hj; omega)

theorem sentLines_unsetSlots (m : middleware) :
    sentLines ((List.range NumCookies).map (unsetSlot m)) =
      (List.range NumCookies).map (unsetLine m) := by
  apply filterMap_map_some
  intro j hj
  exact Cookie_String_unsetSlot m j (List.mem_range.mp hj)

/-- What `net/http` reads back of the slot of a line of `SetToken`. -/
theorem readCookie_authLine (m : middleware) (expiry : Time) (T : GoString) (j : Nat)
    (hj : j < NumCookies) :
    readCookie { Name := (authLine m expiry T j).Name, Value := (authLine m expiry T j).Value } =
      some (authRead T j) := by
  simp only [readCookie, authLine, authName_valid j hj, if_true, parse_sanitize,
    Option.map_some', authRead]

/-- Looking a credential slot name up after the store executed one line for each
index below `k`. -/
theorem Cookie_receive_range (g : Nat → SetCookieLine)
    (hg : ∀ j, (g j).Name = authCookieName ++ Itoa (j : Int))
    (k : Nat) (hk : k ≤ NumCookies) (j : Nat) (hj : j < NumCookies) (S : SlotState)
    (w : ResponseWriter) (hw : sentLines w = (List.range k).map g) :
    Request.Cookie (SlotState.receive S w).request (authCookieName ++ Itoa (j : Int)) =
      if j < k then
        (if (g j).expired S.now then none
          else readCookie { Name := (g j).Name, Value := (g j).Value })
      else Request.Cookie S.request (authCookieName ++ Itoa (j : Int)) := by
  have := find?_authName SetCookieLine.Name g hg k hk j hj ((List.range k).map g).reverse
    (by intro c; simp)
  rw [Cookie_receive, hw, this]
  by_cases hjk : j < k
  · simp [hjk]
  · simp [hjk]

/-- Lines for other names leave a slot as it is. -/
theorem Cookie_receive_frame (S : SlotState) (l : ResponseWriter) (name : GoString)
    (hl : ∀ c ∈ l, c.Name ≠ name) :
    Request.Cookie (SlotState.receive S l).request name = Request.Cookie S.request name := by
  have : (sentLines l).reverse.find? (fun c => c.Name = name) = none := by
    rw [List.find?_eq_none]
    intro x hx
    have hx' : x ∈ sentLines l := List.mem_reverse.mp hx
    simp only [sentLines, List.mem_filterMap] at hx'
    obtain ⟨c, hc, hs⟩ := hx'
    have := (Cookie_String_name c x hs).1
    simpa [this] using hl c hc
  rw [Cookie_receive, this]

/-- After the lines of `UnsetToken` no credential slot is present. -/
theorem slotValue_unset (m : middleware) (S : SlotState) (j : Nat) (hj : j < NumCookies) :
    slotValue (SlotState.receive S ((List.range NumCookies).map (unsetSlot m))).request j
      = [] := by
  have := Cookie_receive_range (unsetLine m) (fun _ => rfl) NumCookies (Nat.le_refl _) j hj S
    _ (sentLines_unsetSlots m)
  have hx : (unsetLine m j).expired S.now = true := rfl
  simp only [slotValue, this, if_pos hj, hx, if_true]

theorem GetToken_unset (m : middleware) (S : SlotState) :
    GetToken m (SlotState.receive S ((List.range NumCookies).map (unsetSlot m))).request
      = [] := by
  rw [GetToken_eq]
  simp only [List.flatten_eq_nil_iff, List.mem_map, List.mem_range]
  rintro l ⟨j, hj, rfl⟩
  exact slotValue_unset m S j hj

/-- Executing the same cookies a second time leaves every slot as it is. -/
theorem Cookie_receive_twice (S : SlotState) (w l : ResponseWriter) (name : GoString) :
    Request.Cookie (SlotState.receive S (w ++ l ++ l)).request name =
      Request.Cookie (SlotState.receive S (w ++ l)).request name := by
  rw [Cookie_receive, Cookie_receive]
  simp only [sentLines, List.filterMap_append, List.reverse_append, List.find?_append]
  cases h : (List.filterMap Cookie.String l).reverse.find? (fun c => c.Name = name) <;> simp

/-- `GetToken` reads the same when every credential slot is the same. -/
theorem GetToken_congr (m : middleware) (r r' : Request)
    (h : ∀ j, j < NumCookies →
      r.Cookie (authCookieName ++ Itoa (j : Int)) = r'.Cookie (authCookieName ++ Itoa (j : Int))) :
    GetToken m r = GetToken m r' := by
  rw [GetToken_eq, GetToken_eq]
  congr 1
  apply List.map_congr_left
  intro j hj
  simp only [slotValue, h j (by simpa using hj)]

theorem authSlot_value_length_eq (m : middleware) (expiry : Time) (T : GoString) (j : Nat) :
    (authSlot m expiry T j).Value.length = min maxCookieSize (T.length - maxCookieSize * j) := by
  simp [authSlot, List.length_take, List.length_drop]

/-! ### Reading a token back -/

theorem flatten_filter_chunks (p : byte → Bool) (c k : Nat) (T : GoString)
    (h : T.length ≤ c * k) :
    ((List.range k).map (fun j => ((T.drop (c * j)).take c).filter p)).flatten =
      T.filter p := by
  have := congrArg (List.filter p) (flatten_chunks c k T h)
  rw [List.filter_flatten, List.map_map] at this
  exact this

theorem chunkCount_covers (T : GoString) : T.length ≤ maxCookieSize * chunkCount T := by
  simp only [chunkCount, maxCookieSize]
  omega

theorem authLine_expired (m : middleware) (expiry : Time) (T : GoString) (j : Nat)
    (now : Time) : (authLine m expiry T j).expired now = expiryPassed expiry now := by
  unfold SetCookieLine.expired authLine expiryPassed
  by_cases hv : validCookieExpires expiry = true
  · simp [hv]
  · simp [hv]

/-- The credential slots after the store executed the lines of a token that fits:
the first `chunkCount T` hold the chunks, or nothing when the expiry has passed,
the others are as before. -/
theorem slotValue_receive_authSlots (m : middleware) (expiry : Time) (T : GoString)
    (h : T.length ≤ maxCookieSize * NumCookies) (S : SlotState) (j : Nat)
    (hj : j < NumCookies) :
    slotValue (SlotState.receive S
        ((List.range (chunkCount T)).map (authSlot m expiry T))).request j =
      if j < chunkCount T then
        (if expiryPassed expiry S.now then []
          else ((T.drop (maxCookieSize * j)).take maxCookieSize).filter validCookieValueByte)
      else slotValue S.request j := by
  have := Cookie_receive_range (authLine m expiry T) (fun _ => rfl) (chunkCount T)
    (chunkCount_le T h) j hj S _ (sentLines_authSlots m expiry T _ (chunkCount_le T h))
  simp only [slotValue, this, authLine_expired, readCookie_authLine m expiry T j hj, authRead]
  by_cases hjk : j < chunkCount T
  · by_cases hp : expiryPassed expiry S.now = true
    · simp [hjk, hp]
    · simp [hjk, hp]
  · simp [hjk]

/-- What `GetToken` reads after the store executed the lines of a token that fits. -/
theorem GetToken_receive_authSlots (m : middleware) (expiry : Time) (T : GoString)
    (h : T.length ≤ maxCookieSize * NumCookies) (S : SlotState) :
    GetToken m (SlotState.receive S
        ((List.range (chunkCount T)).map (authSlot m expiry T))).request =
      (if expiryPassed expiry S.now then [] else T.filter validCookieValueByte) ++
        ((List.range' (chunkCount T) (NumCookies - chunkCount T)).map
          (slotValue S.request)).flatten := by
  rw [GetToken_split m _ (chunkCount T) (chunkCount_le T h)
    (fun j => if expiryPassed expiry S.now then []
      else ((T.drop (maxCookieSize * j)).take maxCookieSize).filter validCookieValueByte)
    (slotValue S.request)
    (slotValue_receive_authSlots m expiry T h S)]
  congr 1
  by_cases hp : expiryPassed expiry S.now = true
  · simp [hp]
  · simp only [hp, if_false]
    exact flatten_filter_chunks _ _ _ T (chunkCount_covers T)

/-- A token of bytes a cookie value may hold is read back whole. -/
theorem filter_valid_self (T : GoString) (hT : ∀ b ∈ T, validCookieValueByte b = true) :
    T.filter validCookieValueByte = T :=
  List.filter_eq_self.mpr hT

/-- The cookies `net/http` reads from a request carrying exactly the slots of a token
that fits. -/
theorem carrying_authSlots (m : middleware) (expiry : Time) (T : GoString) (k : Nat)
    (hk : k ≤ NumCookies) :
    carrying ((List.range k).map (authSlot m expiry T)) = (List.range k).map (authRead T) := by
  rw [carrying, sentLines_authSlots m expiry T k hk, List.map_map, readCookies]
  apply filterMap_map_some
  intro j hj
  exact readCookie_authLine m expiry T j (by have := List.mem_range.mp hj; omega)

theorem GetToken_carrying_authSlots (m : middleware) (expiry : Time) (T : GoString)
    (h : T.length ≤ maxCookieSize * NumCookies) :
    GetToken m (carrying ((List.range (chunkCount T)).map (authSlot m expiry T))) =
      T.filter validCookieValueByte := by
  have hv : ∀ j, j < NumCookies →
      slotValue (carrying ((List.range (chunkCount T)).map (authSlot m expiry T))) j =
        if j < chunkCount T then (authRead T j).Value else [] := by
    intro j hj
    rw [carrying_authSlots m expiry T _ (chunkCount_le T h)]
    have := find?_authName Cookie.Name (authRead T) (fun _ => rfl) (chunkCount T)
      (chunkCount_le T h) j hj ((List.range (chunkCount T)).map (authRead T))
      (by intro c; simp)
    simp only [slotValue, Request.Cookie, this]
    by_cases hjk : j < chunkCount T
    · simp [hjk]
    · simp [hjk]
  rw [GetToken_split m _ (chunkCount T) (chunkCount_le T h) _ (fun _ => []) hv]
  have := flatten_filter_chunks validCookieValueByte maxCookieSize (chunkCount T) T
    (chunkCount_covers T)
  simp only [authRead]
  rw [this]
  simp

/-! ### The lines of the CSRF slot -/

/-- A value of bytes a cookie value may hold, without space or comma, is sent as it
is. -/
theorem sanitizeCookieValue_plain (v : GoString) (hv : ∀ b ∈ v, validCookieValueByte b = true)
    (hq : ¬ ((32 : byte) ∈ v ∨ (44 : byte) ∈ v)) : sanitizeCookieValue v = v := by
  have hf : v.filter validCookieValueByte = v := List.filter_eq_self.mpr hv
  simp only [sanitizeCookieValue, hf, if_neg hq]
  by_cases h0 : v.length = 0
  · rw [if_pos h0]
  · rw [if_neg h0]

theorem SetCSRFToken_eq (m : middleware) (w : ResponseWriter) (c : GoString) (expiry : Time) :
    SetCSRFToken m w c expiry =
      (w ++ [{ Name := csrfCookieName
               Value := c
               Path := lit "/"
               Expires := expiry
               Secure := m.secureCookies
               HttpOnly := true }], none) := rfl

theorem UnsetCSRFToken_eq (m : middleware) (w : ResponseWriter) :
    UnsetCSRFToken m w =
      w ++ [{ Name := csrfCookieName
              Path := lit "/"
              MaxAge := -1
              Secure := m.secureCookies
              HttpOnly := true }] := rfl

theorem sentLines_csrf_set (m : middleware) (c : GoString) (expiry : Time) :
    sentLines [{ Name := csrfCookieName
                 Value := c
                 Path := lit "/"
                 Expires := expiry
                 Secure := m.secureCookies
                 HttpOnly := true }] = [csrfLine m c expiry] := by
  have hp : (lit "/").length > 0 := by decide
  simp only [sentLines, List.filterMap_cons, List.filterMap_nil, Cookie.String, csrfName_valid,
    if_true, sanitizeCookieName_valid _ csrfName_valid, sanitizeCookiePath_root, hp, csrfLine]
  rfl

theorem sentLines_csrf_unset (m : middleware) :
    sentLines [{ Name := csrfCookieName
                 Path := lit "/"
                 MaxAge := -1
                 Secure := m.secureCookies
                 HttpOnly := true }] = [csrfUnsetLine m] := by
  have hp : (lit "/").length > 0 := by decide
  have he : validCookieExpires 0 = false := by decide
  simp only [sentLines, List.filterMap_cons, List.filterMap_nil, Cookie.String, csrfName_valid,
    if_true, sanitizeCookieName_valid _ csrfName_valid, sanitizeCookiePath_root, hp, he,
    csrfUnsetLine]
  rfl

/-- C1, as stated, fails: of the token `a;b` the slot written holds `ab`, since
`http.SetCookie` drops the byte `;`, and `GetToken` on a request carrying exactly
that slot returns `ab`. -/
theorem SetToken_drops_illegal_bytes :
    (SetToken (NewMiddleware true) [] (lit "a;b") 64000000000000000000).2 = none ∧
    (sentLines (SetToken (NewMiddleware true) [] (lit "a;b") 64000000000000000000).1).map
      SetCookieLine.Value = [lit "ab"] ∧
    GetToken (NewMiddleware true)
      (carrying (SetToken (NewMiddleware true) [] (lit "a;b") 64000000000000000000).1) =
        lit "ab" ∧
    lit "ab" ≠ lit "a;b" := by
  decide

/-- C1, amended. Round trip: for every token `T` of at most 60000 bytes, all of them
bytes a cookie value may hold, `SetToken` returns no error, the slots sent are
named by their index in order, their values as `net/http` reads them back, put
together in that order, are `T` (the values as sent are `T` when `T` has no space
and no comma, which `net/http` puts in double quotes), and `GetToken` on a request
carrying exactly those slots returns `T`. -/
theorem SetToken_GetToken_round_trip (m : middleware) (w : ResponseWriter) (T : GoString)
    (expiry : Time) (h : T.length ≤ 60000) (hT : ∀ b ∈ T, validCookieValueByte b = true) :
    ∃ slots : List Cookie,
      SetToken m w T expiry = (w ++ slots, none) ∧
      (sentLines slots).map SetCookieLine.Name =
        (List.range slots.length).map (fun (i : Nat) => authCookieName ++ Itoa (i : Int)) ∧
      ((sentLines slots).filterMap (fun l => parseCookieValue l.Value)).flatten = T ∧
      (¬ ((32 : byte) ∈ T ∨ (44 : byte) ∈ T) →
        ((sentLines slots).map SetCookieLine.Value).flatten = T) ∧
      GetToken m (carrying slots) = T := by
  have h' : T.length ≤ maxCookieSize * NumCookies := by rw [capacity_eq]; exact h
  have hk := chunkCount_le T h'
  have hchunk : ∀ j, ((T.drop (maxCookieSize * j)).take maxCookieSize).filter
      validCookieValueByte = (T.drop (maxCookieSize * j)).take maxCookieSize := fun j =>
    List.filter_eq_self.mpr (fun b hb =>
      hT b (List.mem_of_mem_drop (List.mem_of_mem_take hb)))
  refine ⟨_, SetToken_accept m w T expiry h', ?_, ?_, ?_, ?_⟩
  · rw [sentLines_authSlots m expiry T _ hk]
    simp [List.map_map, Function.comp_def, authLine]
  · rw [sentLines_authSlots m expiry T _ hk,
      filterMap_map_some (authLine m expiry T) (fun l => parseCookieValue l.Value)
        (fun j => (T.drop (maxCookieSize * j)).take maxCookieSize) _
        (fun j _ => by simp only [authLine, parse_sanitize, hchunk])]
    exact flatten_chunks _ _ T (chunkCount_covers T)
  · intro hq
    rw [sentLines_authSlots m expiry T _ hk, List.map_map]
    have hmap : (List.range (chunkCount T)).map (SetCookieLine.Value ∘ authLine m expiry T) =
        (List.range (chunkCount T)).map
          (fun j => (T.drop (maxCookieSize * j)).take maxCookieSize) := by
      apply List.map_congr_left
      intro j _
      simp only [Function.comp, authLine]
      apply sanitizeCookieValue_plain
      · intro b hb
        exact hT b (List.mem_of_mem_drop (List.mem_of_mem_take hb))
      · intro hc
        apply hq
        rcases hc with hc | hc
        · exact Or.inl (List.mem_of_mem_drop (List.mem_of_mem_take hc))
        · exact Or.inr (List.mem_of_mem_drop (List.mem_of_mem_take hc))
    rw [hmap]
    exact flatten_chunks _ _ T (chunkCount_covers T)
  · rw [GetToken_carrying_authSlots m expiry T h', filter_valid_self T hT]

set_option maxRecDepth 100000 in
theorem SetToken_GetToken_round_trip_witness :
    (lit "abc").length ≤ 60000 ∧
    ∃ slots : List Cookie,
      SetToken (NewMiddleware true) [] (lit "abc") 7 = ([] ++ slots, none) ∧
      (sentLines slots).map SetCookieLine.Name =
        (List.range slots.length).map (fun (i : Nat) => authCookieName ++ Itoa (i : Int)) ∧
      ((sentLines slots).filterMap (fun l => parseCookieValue l.Value)).flatten = lit "abc" ∧
      (¬ ((32 : byte) ∈ lit "abc" ∨ (44 : byte) ∈ lit "abc") →
        ((sentLines slots).map SetCookieLine.Value).flatten = lit "abc") ∧
      GetToken (NewMiddleware true) (carrying slots) = lit "abc" :=
  ⟨by decide,
    SetToken_GetToken_round_trip (NewMiddleware true) [] (lit "abc") 7 (by decide) (by decide)⟩

/-- C2. Capacity boundary: the capacity is 4000 x 15 = 60000 bytes; `SetToken`
returns an error exactly when the token is longer than that, so 60000 bytes are
accepted and 60001 refused; and when it returns an error it has added no
instruction, so that `GetToken` reads what it read before the call. -/
theorem SetToken_capacity_boundary (m : middleware) (w : ResponseWriter) (T : GoString)
    (expiry : Time) :
    maxCookieSize * NumCookies = 60000 ∧
    ((SetToken m w T expiry).2 ≠ none ↔ T.length > 60000) ∧
    (T.length = 60000 → (SetToken m w T expiry).2 = none) ∧
    (T.length = 60001 → (SetToken m w T expiry).2 ≠ none) ∧
    ((SetToken m w T expiry).2 ≠ none →
      (SetToken m w T expiry).1 = w ∧
      ∀ S : SlotState,
        GetToken m (S.receive (SetToken m w T expiry).1).request =
          GetToken m (S.receive w).request) := by
  have hiff : (SetToken m w T expiry).2 ≠ none ↔ T.length > 60000 := by
    by_cases h : T.length ≤ maxCookieSize * NumCookies
    · rw [SetToken_accept m w T expiry h]
      rw [capacity_eq] at h
      simp only [ne_eq, not_true_eq_false, false_iff]
      omega
    · have h' : maxCookieSize * NumCookies < T.length := Nat.lt_of_not_le h
      rw [SetToken_reject m w T expiry h']
      rw [capacity_eq] at h'
      simp only [ne_eq, reduceCtorEq, not_false_eq_true, true_iff]
      omega
  refine ⟨capacity_eq, hiff, ?_, ?_, ?_⟩
  · intro h
    by_contra hne
    have := hiff.mp hne
    omega
  · intro h
    exact hiff.mpr (by omega)
  · intro hne
    have hlen : maxCookieSize * NumCookies < T.length := by
      rw [capacity_eq]
      exact hiff.mp hne
    rw [SetToken_reject m w T expiry hlen]
    exact ⟨rfl, fun _ => rfl⟩

theorem SetToken_capacity_boundary_witness :
    (SetToken (NewMiddleware true) [] (List.replicate 60000 0) 7).2 = none ∧
    (SetToken (NewMiddleware true) [] (List.replicate 60001 0) 7).2 ≠ none ∧
    (SetToken (NewMiddleware true) [] (List.replicate 60001 0) 7).1 = [] :=
  ⟨(SetToken_capacity_boundary (NewMiddleware true) [] (List.replicate 60000 0) 7).2.2.1
      (List.length_replicate 60000 0),
    (SetToken_capacity_boundary (NewMiddleware true) [] (List.replicate 60001 0) 7).2.2.2.1
      (List.length_replicate 60001 0),
    ((SetToken_capacity_boundary (NewMiddleware true) [] (List.replicate 60001 0) 7).2.2.2.2
      ((SetToken_capacity_boundary (NewMiddleware true) [] (List.replicate 60001 0) 7).2.2.2.1
        (List.length_replicate 60001 0))).1⟩

/-- C3. Unset clears all fragments: `UnsetToken` adds, for each index 0..14 in order,
an instruction for `skymarshal_auth<i>` with an empty value and `MaxAge = -1`
(immediate expiry); it has no error result; and whatever slots the medium held
before (those of a 50000-byte token included), `GetToken` on the state after these
instructions returns the empty string. -/
theorem UnsetToken_clears_all (m : middleware) (w : ResponseWriter) (S : SlotState) :
    UnsetToken m w = w ++ (List.range 15).map (fun (i : Nat) =>
      ({ Name := lit "skymarshal_auth" ++ Itoa (i : Int)
         Value := []
         Path := lit "/"
         Expires := 0
         MaxAge := -1
         Secure := m.secureCookies
         HttpOnly := true } : Cookie)) ∧
    GetToken m (S.receive (UnsetToken m w)).request = [] := by
  refine ⟨UnsetToken_eq m w, ?_⟩
  rw [UnsetToken_eq, receive_append]
  exact GetToken_unset m _

/-- C4, as stated, fails: of the token of the bytes 1, 2, 3 the slot written holds
an empty value, not the chunk, since `http.SetCookie` drops control bytes. -/
theorem SetToken_chunk_not_sent :
    (sentLines (SetToken (NewMiddleware false) [] [1, 2, 3] 64000000000000000000).1).map
      SetCookieLine.Value = [[]] ∧
    (([1, 2, 3] : GoString).drop (4000 * 0)).take 4000 = [1, 2, 3] := by
  decide

/-- C4, amended. Chunk layout: for every token `T` accepted by `SetToken`, all of whose
bytes are bytes a cookie value may hold, the slots sent are those of indices 0, 1,
... up to fewer than 15, in order; the slot of index `i` is named
`skymarshal_auth<i>` and its value, as `net/http` reads it back, is the `i`-th
consecutive chunk of `T`, the bytes from `4000 * i` up to `4000 * i + 4000`, at
most 4000 of them; the value as sent is the chunk itself unless the chunk holds a
space or a comma; the chunks together are `T`. -/
theorem SetToken_chunk_layout (m : middleware) (w : ResponseWriter) (T : GoString)
    (expiry : Time) (h : T.length ≤ 60000) (hT : ∀ b ∈ T, validCookieValueByte b = true) :
    ∃ slots : List Cookie,
      SetToken m w T expiry = (w ++ slots, none) ∧
      slots.length ≤ 15 ∧
      (sentLines slots).length = slots.length ∧
      (∀ i : Nat, i < slots.length →
        ∃ l : SetCookieLine, (sentLines slots)[i]? = some l ∧
          l.Name = lit "skymarshal_auth" ++ Itoa (i : Int) ∧
          parseCookieValue l.Value = some ((T.drop (4000 * i)).take 4000) ∧
          ((T.drop (4000 * i)).take 4000).length ≤ 4000 ∧
          (¬ ((32 : byte) ∈ (T.drop (4000 * i)).take 4000 ∨
              (44 : byte) ∈ (T.drop (4000 * i)).take 4000) →
            l.Value = (T.drop (4000 * i)).take 4000)) ∧
      ((sentLines slots).filterMap (fun l => parseCookieValue l.Value)).flatten = T := by
  have h' : T.length ≤ maxCookieSize * NumCookies := by rw [capacity_eq]; exact h
  have hk := chunkCount_le T h'
  have hmem : ∀ j, ∀ b ∈ (T.drop (maxCookieSize * j)).take maxCookieSize,
      validCookieValueByte b = true := fun j b hb =>
    hT b (List.mem_of_mem_drop (List.mem_of_mem_take hb))
  have hchunk : ∀ j, ((T.drop (maxCookieSize * j)).take maxCookieSize).filter
      validCookieValueByte = (T.drop (maxCookieSize * j)).take maxCookieSize := fun j =>
    List.filter_eq_self.mpr (hmem j)
  refine ⟨_, SetToken_accept m w T expiry h', ?_, ?_, ?_, ?_⟩
  · simpa using hk
  · rw [sentLines_authSlots m expiry T _ hk]
    simp
  · intro i hi
    simp only [List.length_map, List.length_range] at hi
    refine ⟨authLine m expiry T i, ?_, rfl, ?_, ?_, ?_⟩
    · rw [sentLines_authSlots m expiry T _ hk]
      simp [List.getElem?_map, List.getElem?_range, hi]
    · have := parse_sanitize ((T.drop (maxCookieSize * i)).take maxCookieSize)
      rw [hchunk i] at this
      exact this
    · have := authSlot_value_length m expiry T i
      exact this
    · intro hq
      exact sanitizeCookieValue_plain _ (hmem i) hq
  · rw [sentLines_authSlots m expiry T _ hk,
      filterMap_map_some (authLine m expiry T) (fun l => parseCookieValue l.Value)
        (fun j => (T.drop (maxCookieSize * j)).take maxCookieSize) _
        (fun j _ => by simp only [authLine, parse_sanitize, hchunk])]
    exact flatten_chunks _ _ T (chunkCount_covers T)

set_option maxRecDepth 100000 in
theorem SetToken_chunk_layout_witness :
    (lit "a b,c").length ≤ 60000 ∧
    ∃ slots : List Cookie,
      SetToken (NewMiddleware false) [] (lit "a b,c") 7 = ([] ++ slots, none) ∧
      slots.length ≤ 15 ∧
      ((sentLines slots).filterMap (fun l => parseCookieValue l.Value)).flatten =
        lit "a b,c" :=
  ⟨by decide,
    (SetToken_chunk_layout (NewMiddleware false) [] (lit "a b,c") 7 (by decide)
      (by decide)).imp (fun _ hs => ⟨hs.1, hs.2.1, hs.2.2.2.2⟩)⟩

/-- C5, as stated, fails twice: on an empty store the token of the byte 1 reads back
as the empty string, since `http.SetCookie` drops the byte; and the token `ab`
written with an expiry in the year 2000 reads back as the empty string from a
store that is at the year 2029, which drops the slot at once. -/
theorem SetToken_not_read_back :
    GetToken (NewMiddleware true)
      (SlotState.receive { now := 64000000000000000000, slots := [] }
        (SetToken (NewMiddleware true) [] [1] 65000000000000000000).1).request = [] ∧
    GetToken (NewMiddleware true)
      (SlotState.receive { now := 64000000000000000000, slots := [] }
        (SetToken (NewMiddleware true) [] (lit "ab") 63082281600000000000).1).request = [] := by
  decide

/-- C5, amended. Stale fragments: for every state `S` of the medium and every token
`T` accepted by `SetToken`, writing `k` slots, the credential slots of index
`k..14` are after the call what they were in `S`, and `GetToken` returns what the
store kept of `T` (nothing when the expiry has passed, else `T` without the bytes
a cookie value may not hold) followed by the values of the slots of `S` present at
the indices `k..14`; so it returns `T` followed by those values when `T` is made of
bytes a cookie value may hold and the expiry has not passed. In particular, on an
empty store, such a token `T1` followed without unsetting by such a one-slot token
`T2` reads back as `T2` followed by the old fragments of `T1` from slot 1 on
(slots 1-9 for a ten-slot `T1`). -/
theorem SetToken_stale_fragments (m : middleware) :
    (∀ (S : SlotState) (w : ResponseWriter) (T : GoString) (expiry : Time),
      T.length ≤ 60000 →
      ∃ slots : List Cookie,
        SetToken m w T expiry = (w ++ slots, none) ∧
        (∀ j : Nat, slots.length ≤ j → j < 15 →
          (S.receive slots).request.Cookie (authCookieName ++ Itoa (j : Int)) =
            S.request.Cookie (authCookieName ++ Itoa (j : Int))) ∧
        GetToken m (S.receive slots).request =
          (if expiryPassed expiry S.now then [] else T.filter validCookieValueByte) ++
            ((List.range' slots.length (15 - slots.length)).map
              (slotValue S.request)).flatten ∧
        ((∀ b ∈ T, validCookieValueByte b = true) → expiryPassed expiry S.now = false →
          GetToken m (S.receive slots).request =
            T ++ ((List.range' slots.length (15 - slots.length)).map
              (slotValue S.request)).flatten)) ∧
    (∀ (now : Time) (T1 T2 : GoString) (e1 e2 : Time),
      T1.length ≤ 60000 → T2.length ≤ 4000 →
      (∀ b ∈ T1, validCookieValueByte b = true) →
      (∀ b ∈ T2, validCookieValueByte b = true) →
      expiryPassed e1 now = false → expiryPassed e2 now = false →
      GetToken m
        (SlotState.receive
          (SlotState.receive { now := now, slots := [] } (SetToken m [] T1 e1).1)
          (SetToken m [] T2 e2).1).request = T2 ++ T1.drop 4000) := by
  constructor
  · intro S w T expiry h
    have h' : T.length ≤ maxCookieSize * NumCookies := by rw [capacity_eq]; exact h
    have hget := GetToken_receive_authSlots m expiry T h' S
    have hlen : ((List.range (chunkCount T)).map (authSlot m expiry T)).length =
        chunkCount T := by simp
    refine ⟨_, SetToken_accept m w T expiry h', ?_, ?_, ?_⟩
    · intro j hkj hj
      have := Cookie_receive_range (authLine m expiry T) (fun _ => rfl) (chunkCount T)
        (chunkCount_le T h') j hj S _ (sentLines_authSlots m expiry T _ (chunkCount_le T h'))
      rw [hlen] at hkj
      rw [if_neg (by omega)] at this
      exact this
    · rw [hlen]
      exact hget
    · intro hT hp
      rw [hlen, hget, hp, filter_valid_self T hT]
      rfl
  · intro now T1 T2 e1 e2 h1 h2 hT1 hT2 hp1 hp2
    have h1' : T1.length ≤ maxCookieSize * NumCookies := by rw [capacity_eq]; exact h1
    have h2' : T2.length ≤ maxCookieSize * NumCookies := by rw [capacity_eq]; omega
    have hk2 : chunkCount T2 = 1 := by
      simp only [chunkCount, maxCookieSize]
      omega
    rw [SetToken_accept m [] T1 e1 h1', SetToken_accept m [] T2 e2 h2']
    simp only [List.nil_append]
    rw [GetToken_receive_authSlots m e2 T2 h2', hk2, receive_now]
    simp only [hp2, filter_valid_self T2 hT2]
    congr 1
    -- the slots 1..14 left by `T1` hold `T1` without its first chunk
    have hall := GetToken_receive_authSlots m e1 T1 h1' { now := now, slots := [] }
    have hnil : ((List.range' (chunkCount T1) (NumCookies - chunkCount T1)).map
        (slotValue (SlotState.request { now := now, slots := [] }))).flatten = [] := by
      simp only [List.flatten_eq_nil_iff, List.mem_map]
      rintro l ⟨j, _, rfl⟩
      rfl
    simp only [hp1, filter_valid_self T1 hT1] at hall
    rw [hnil, List.append_nil, GetToken_eq] at hall
    have h0 := slotValue_receive_authSlots m e1 T1 h1' { now := now, slots := [] } 0 (by decide)
    rw [if_pos (chunkCount_pos T1)] at h0
    simp only [hp1] at h0
    have hsplit : List.range NumCookies = 0 :: List.range' 1 (NumCookies - 1) := by decide
    rw [hsplit, List.map_cons, List.flatten_cons, h0] at hall
    have hv : ((T1.drop (maxCookieSize * 0)).take maxCookieSize).filter validCookieValueByte =
        T1.take maxCookieSize := by
      rw [Nat.mul_zero, List.drop_zero]
      exact List.filter_eq_self.mpr (fun b hb => hT1 b (List.mem_of_mem_take hb))
    simp only [Bool.false_eq_true, if_false] at hall
    rw [hv] at hall
    have := (List.take_append_drop maxCookieSize T1).trans hall.symm
    exact (List.append_cancel_left this).symm

set_option maxRecDepth 100000 in
theorem SetToken_stale_fragments_witness :
    GetToken (NewMiddleware true)
      (SlotState.receive
        (SlotState.receive { now := 64000000000000000000, slots := [] }
          (SetToken (NewMiddleware true) [] (List.replicate 4001 97) 65000000000000000000).1)
        (SetToken (NewMiddleware true) [] (lit "d") 65000000000000000000).1).request =
      lit "d" ++ (List.replicate 4001 97 : GoString).drop 4000 :=
  (SetToken_stale_fragments (NewMiddleware true)).2 64000000000000000000
    (List.replicate 4001 97) (lit "d") 65000000000000000000 65000000000000000000
    (le_of_eq_of_le (List.length_replicate 4001 97) (by decide)) (by decide)
    (fun b hb => (List.eq_of_mem_replicate hb).symm ▸ (by decide)) (by decide)
    (by decide) (by decide)

/-- C6. Tolerant read: `GetToken` has no error result; it returns the values of the
credential slots the request carries, put together in the order of the indices
0..14, a slot that is absent adding nothing; it returns the empty string when
none is present. -/
theorem GetToken_tolerant_read (m : middleware) (r : Request) :
    GetToken m r = ((List.range 15).map (fun (i : Nat) =>
      match r.Cookie (lit "skymarshal_auth" ++ Itoa (i : Int)) with
      | some cookie => cookie.Value
      | none => [])).flatten ∧
    ((∀ i : Nat, i < 15 → r.Cookie (lit "skymarshal_auth" ++ Itoa (i : Int)) = none) →
      GetToken m r = []) := by
  refine ⟨GetToken_eq m r, ?_⟩
  intro h
  rw [GetToken_eq]
  simp only [List.flatten_eq_nil_iff, List.mem_map, List.mem_range]
  rintro l ⟨j, hj, rfl⟩
  have := h j hj
  simp only [slotValue]
  rw [show authCookieName = lit "skymarshal_auth" from rfl, this]

theorem GetToken_tolerant_read_witness :
    GetToken (NewMiddleware true) [] = [] :=
  (GetToken_tolerant_read (NewMiddleware true) []).2 (fun _ _ => rfl)

/-- C7. CSRF independence: whatever the state of the medium and the instructions
already in the response, the instructions added by `SetToken` and by `UnsetToken`
leave the CSRF slot as it is, so `GetCSRFToken` returns the same value with and
without the call; and those added by `SetCSRFToken` and by `UnsetCSRFToken` leave
each of the 15 credential slots as it is, so `GetToken` returns the same value
with and without the call. -/
theorem CSRF_independence (m : middleware) (S : SlotState) (w : ResponseWriter)
    (T c : GoString) (expiry : Time) :
    ((S.receive (SetToken m w T expiry).1).request.Cookie csrfCookieName =
        (S.receive w).request.Cookie csrfCookieName ∧
      GetCSRFToken m (S.receive (SetToken m w T expiry).1).request =
        GetCSRFToken m (S.receive w).request) ∧
    ((S.receive (UnsetToken m w)).request.Cookie csrfCookieName =
        (S.receive w).request.Cookie csrfCookieName ∧
      GetCSRFToken m (S.receive (UnsetToken m w)).request =
        GetCSRFToken m (S.receive w).request) ∧
    ((∀ i : Nat, i < 15 →
        (S.receive (SetCSRFToken m w c expiry).1).request.Cookie
            (authCookieName ++ Itoa (i : Int)) =
          (S.receive w).request.Cookie (authCookieName ++ Itoa (i : Int))) ∧
      GetToken m (S.receive (SetCSRFToken m w c expiry).1).request =
        GetToken m (S.receive w).request) ∧
    ((∀ i : Nat, i < 15 →
        (S.receive (UnsetCSRFToken m w)).request.Cookie (authCookieName ++ Itoa (i : Int)) =
          (S.receive w).request.Cookie (authCookieName ++ Itoa (i : Int))) ∧
      GetToken m (S.receive (UnsetCSRFToken m w)).request =
        GetToken m (S.receive w).request) := by
  have hset : (S.receive (SetToken m w T expiry).1).request.Cookie csrfCookieName =
      (S.receive w).request.Cookie csrfCookieName := by
    by_cases h : T.length ≤ maxCookieSize * NumCookies
    · rw [SetToken_accept m w T expiry h]
      simp only [receive_append, SlotState.request]
      apply Cookie_receive_frame
      intro x hx
      simp only [List.mem_map, List.mem_range] at hx
      obtain ⟨j, _, rfl⟩ := hx
      exact authName_ne_csrf _
    · rw [SetToken_reject m w T expiry (Nat.lt_of_not_le h)]
  have hunset : (S.receive (UnsetToken m w)).request.Cookie csrfCookieName =
      (S.receive w).request.Cookie csrfCookieName := by
    rw [UnsetToken_eq]
    simp only [receive_append, SlotState.request]
    apply Cookie_receive_frame
    intro x hx
    simp only [List.mem_map, List.mem_range] at hx
    obtain ⟨j, _, rfl⟩ := hx
    exact authName_ne_csrf _
  have hcset : ∀ i : Nat,
      (S.receive (SetCSRFToken m w c expiry).1).request.Cookie
          (authCookieName ++ Itoa (i : Int)) =
        (S.receive w).request.Cookie (authCookieName ++ Itoa (i : Int)) := by
    intro i
    simp only [SetCSRFToken, SetCookie_eq, receive_append, SlotState.request]
    apply Cookie_receive_frame
    intro x hx
    simp only [List.mem_singleton] at hx
    subst hx
    exact fun h => authName_ne_csrf _ h.symm
  have hcunset : ∀ i : Nat,
      (S.receive (UnsetCSRFToken m w)).request.Cookie (authCookieName ++ Itoa (i : Int)) =
        (S.receive w).request.Cookie (authCookieName ++ Itoa (i : Int)) := by
    intro i
    simp only [UnsetCSRFToken, SetCookie_eq, receive_append, SlotState.request]
    apply Cookie_receive_frame
    intro x hx
    simp only [List.mem_singleton] at hx
    subst hx
    exact fun h => authName_ne_csrf _ h.symm
  refine ⟨⟨hset, ?_⟩, ⟨hunset, ?_⟩, ⟨fun i _ => hcset i, ?_⟩, ⟨fun i _ => hcunset i, ?_⟩⟩
  · simp only [GetCSRFToken, hset]
  · simp only [GetCSRFToken, hunset]
  · exact GetToken_congr m _ _ (fun j _ => hcset j)
  · exact GetToken_congr m _ _ (fun j _ => hcunset j)

/-- C8, as stated, fails: `SetToken` called with the expiry 7, an instant of the year
1, sends a slot with no expiry at all, since `http.SetCookie` sends no `Expires`
before the year 1601; and no slot of `UnsetToken` is sent with an expiry date. -/
theorem SetToken_expiry_not_sent :
    (sentLines (SetToken (NewMiddleware true) [] (lit "ab") 7).1).map SetCookieLine.Expires =
      [none] ∧
    (sentLines (UnsetToken (NewMiddleware true) [])).all (fun l => l.Expires == none) = true := by
  decide

/-- C8, amended. Slot attributes: for a middleware built with `NewMiddleware b`, each
cookie given to `http.SetCookie` by `SetToken`, `SetCSRFToken`, `UnsetToken` and
`UnsetCSRFToken` is sent as one slot, with path `/`, `HttpOnly` and `Secure` exactly
when `b`. The slots of `SetToken` and `SetCSRFToken` are sent without `Max-Age`
and with the expiry the caller gave, to the second, when its year is 1601 or
later, and with no expiry otherwise. The slots of the two unset operations have
an empty value, `Max-Age=0` and no expiry date, so that the store drops them at
once, whatever the instant. -/
theorem slot_attributes (b : Bool) (w : ResponseWriter) (T c : GoString) (expiry : Time) :
    (∃ added : List Cookie,
      (SetToken (NewMiddleware b) w T expiry).1 = w ++ added ∧
      (T.length ≤ 60000 → added ≠ []) ∧
      (sentLines added).length = added.length ∧
      ∀ l ∈ sentLines added, l.Path = lit "/" ∧ l.HttpOnly = true ∧ l.Secure = b ∧
        l.MaxAge = none ∧
        l.Expires =
          if year1601 ≤ expiry then some (expiry / 1000000000 * 1000000000) else none) ∧
    (∃ added : List Cookie,
      (SetCSRFToken (NewMiddleware b) w c expiry).1 = w ++ added ∧
      (sentLines added).length = 1 ∧
      ∀ l ∈ sentLines added, l.Path = lit "/" ∧ l.HttpOnly = true ∧ l.Secure = b ∧
        l.MaxAge = none ∧
        l.Expires =
          if year1601 ≤ expiry then some (expiry / 1000000000 * 1000000000) else none) ∧
    (∃ added : List Cookie,
      UnsetToken (NewMiddleware b) w = w ++ added ∧
      (sentLines added).length = 15 ∧
      ∀ l ∈ sentLines added, l.Path = lit "/" ∧ l.HttpOnly = true ∧ l.Secure = b ∧
        l.Value = [] ∧ l.MaxAge = some 0 ∧ l.Expires = none ∧
        ∀ now : Time, l.expired now = true) ∧
    (∃ added : List Cookie,
      UnsetCSRFToken (NewMiddleware b) w = w ++ added ∧
      (sentLines added).length = 1 ∧
      ∀ l ∈ sentLines added, l.Path = lit "/" ∧ l.HttpOnly = true ∧ l.Secure = b ∧
        l.Value = [] ∧ l.MaxAge = some 0 ∧ l.Expires = none ∧
        ∀ now : Time, l.expired now = true) := by
  have hexp : ∀ t : Time, (if validCookieExpires t = true then
        some (t / 1000000000 * 1000000000) else none) =
      if year1601 ≤ t then some (t / 1000000000 * 1000000000) else none := by
    intro t
    simp [validCookieExpires]
  refine ⟨?_, ?_, ?_, ?_⟩
  · by_cases h : T.length ≤ maxCookieSize * NumCookies
    · refine ⟨_, congrArg Prod.fst (SetToken_accept _ w T expiry h), ?_, ?_, ?_⟩
      · intro _ hnil
        have := congrArg List.length hnil
        have hpos := chunkCount_pos T
        simp only [List.length_map, List.length_range, List.length_nil] at this
        omega
      · rw [sentLines_authSlots _ expiry T _ (chunkCount_le T h)]
        simp
      · intro l hl
        rw [sentLines_authSlots _ expiry T _ (chunkCount_le T h)] at hl
        simp only [List.mem_map, List.mem_range] at hl
        obtain ⟨j, _, rfl⟩ := hl
        exact ⟨rfl, rfl, rfl, rfl, hexp expiry⟩
    · refine ⟨[], ?_, ?_, rfl, ?_⟩
      · rw [SetToken_reject _ w T expiry (Nat.lt_of_not_le h), List.append_nil]
      · intro h60
        rw [capacity_eq] at h
        exact absurd h60 h
      · intro l hl
        cases hl
  · refine ⟨_, congrArg Prod.fst (SetCSRFToken_eq _ w c expiry), ?_, ?_⟩
    · rw [sentLines_csrf_set]
      rfl
    · intro l hl
      rw [sentLines_csrf_set] at hl
      simp only [List.mem_singleton] at hl
      subst hl
      exact ⟨rfl, rfl, rfl, rfl, hexp expiry⟩
  · refine ⟨_, UnsetToken_eq _ w, ?_, ?_⟩
    · rw [sentLines_unsetSlots]
      simp [NumCookies]
    · intro l hl
      rw [sentLines_unsetSlots] at hl
      simp only [List.mem_map, List.mem_range] at hl
      obtain ⟨j, _, rfl⟩ := hl
      exact ⟨rfl, rfl, rfl, rfl, rfl, rfl, fun _ => rfl⟩
  · refine ⟨_, UnsetCSRFToken_eq _ w, ?_, ?_⟩
    · rw [sentLines_csrf_unset]
      rfl
    · intro l hl
      rw [sentLines_csrf_unset] at hl
      simp only [List.mem_singleton] at hl
      subst hl
      exact ⟨rfl, rfl, rfl, rfl, rfl, rfl, fun _ => rfl⟩

/-- C9, as stated, fails for the empty token: `SetToken` accepts it and writes one
slot, while `ceil (0 / 4000)` is `0`. -/
theorem SetToken_slot_count_empty :
    SetToken (NewMiddleware true) [] [] 7 =
      ([{ Name := lit "skymarshal_auth0"
          Value := []
          Path := lit "/"
          Expires := 7
          HttpOnly := true
          Secure := true }], none) ∧
    (SetToken (NewMiddleware true) [] [] 7).1.length ≠
      (([] : GoString).length + 3999) / 4000 := by
  decide

/-- C9, amended. Slot count: for every non-empty token `T` accepted by `SetToken` the
number of slots written is `ceil (len T / 4000)`, the least `k` with
`len T ≤ 4000 * k`; a token of 50000 bytes occupies 13 slots; for the empty token
one slot is written. -/
theorem SetToken_slot_count (m : middleware) (w : ResponseWriter) (T : GoString)
    (expiry : Time) (h : T.length ≤ 60000) :
    ∃ slots : List Cookie,
      SetToken m w T expiry = (w ++ slots, none) ∧
      (T ≠ [] → slots.length = (T.length + 3999) / 4000 ∧
        T.length ≤ 4000 * slots.length ∧ 4000 * (slots.length - 1) < T.length) ∧
      (T = [] → slots.length = 1) ∧
      (T.length = 50000 → slots.length = 13) := by
  have h' : T.length ≤ maxCookieSize * NumCookies := by rw [capacity_eq]; exact h
  refine ⟨_, SetToken_accept m w T expiry h', ?_, ?_, ?_⟩
  · intro hne
    have hpos : 0 < T.length := List.length_pos.mpr hne
    simp only [List.length_map, List.length_range, chunkCount, maxCookieSize]
    omega
  · intro hnil
    subst hnil
    simp [chunkCount, maxCookieSize]
  · intro h5
    simp only [List.length_map, List.length_range, chunkCount, maxCookieSize, h5]
    decide

theorem SetToken_slot_count_witness :
    (List.replicate 50000 1 : GoString).length ≤ 60000 ∧
    ∃ slots : List Cookie,
      SetToken (NewMiddleware true) [] (List.replicate 50000 1) 7 = ([] ++ slots, none) ∧
      slots.length = 13 :=
  ⟨le_of_eq_of_le (List.length_replicate 50000 1) (by decide),
    (SetToken_slot_count (NewMiddleware true) [] (List.replicate 50000 1) 7
      (le_of_eq_of_le (List.length_replicate 50000 1) (by decide))).imp
      (fun _ hs => ⟨hs.1, hs.2.2.2 (List.length_replicate 50000 1)⟩)⟩

/-- C11, as stated, fails: `SetCSRFToken` accepts a CSRF token of 4001 bytes `a`,
returns no error and sends it whole in the one slot. -/
theorem SetCSRFToken_long_accepted :
    (List.replicate 4001 97 : GoString).length = 4001 ∧
    (SetCSRFToken (NewMiddleware true) [] (List.replicate 4001 97) 7).2 = none ∧
    (sentLines (SetCSRFToken (NewMiddleware true) [] (List.replicate 4001 97) 7).1).map
      SetCookieLine.Value = [List.replicate 4001 97] := by
  refine ⟨List.length_replicate 4001 97, rfl, ?_⟩
  rw [SetCSRFToken_eq, List.nil_append, sentLines_csrf_set, List.map_cons, List.map_nil]
  have : sanitizeCookieValue (List.replicate 4001 97) = List.replicate 4001 97 :=
    sanitizeCookieValue_plain _
      (fun b hb => (List.eq_of_mem_replicate hb).symm ▸ (by decide))
      (fun hq => by
        rcases hq with hq | hq
        · exact absurd (List.eq_of_mem_replicate hq) (by decide)
        · exact absurd (List.eq_of_mem_replicate hq) (by decide))
  simp only [csrfLine, this]

/-- C11, amended. CSRF slot: `SetCSRFToken` has no size check; for every CSRF token it
returns no error and sends exactly one slot, `skymarshal_csrf`, whose value is
the token as `net/http` sends it, read back as the token without the bytes a
cookie value may not hold; a token of such bytes, without space or comma, is sent
unchanged, whatever its length. -/
theorem SetCSRFToken_single_slot (m : middleware) (w : ResponseWriter) (c : GoString)
    (expiry : Time) :
    ∃ added : List Cookie,
      SetCSRFToken m w c expiry = (w ++ added, none) ∧
      ∃ l : SetCookieLine, sentLines added = [l] ∧
        l.Name = lit "skymarshal_csrf" ∧
        l.Value = sanitizeCookieValue c ∧
        parseCookieValue l.Value = some (c.filter validCookieValueByte) ∧
        ((∀ b ∈ c, validCookieValueByte b = true) → ¬ ((32 : byte) ∈ c ∨ (44 : byte) ∈ c) →
          l.Value = c) := by
  refine ⟨_, SetCSRFToken_eq m w c expiry, csrfLine m c expiry, sentLines_csrf_set m c expiry,
    rfl, rfl, parse_sanitize c, ?_⟩
  intro hc hq
  exact sanitizeCookieValue_plain c hc hq

/-- C12, as stated, fails: a second call with the same arguments adds its
instructions to the response once more, for each of the four operations. -/
theorem repeated_call_adds_instructions :
    (SetToken (NewMiddleware true) (SetToken (NewMiddleware true) [] [1, 2] 7).1 [1, 2] 7).1 ≠
      (SetToken (NewMiddleware true) [] [1, 2] 7).1 ∧
    UnsetToken (NewMiddleware true) (UnsetToken (NewMiddleware true) []) ≠
      UnsetToken (NewMiddleware true) [] ∧
    (SetCSRFToken (NewMiddleware true) (SetCSRFToken (NewMiddleware true) [] [3] 7).1 [3] 7).1 ≠
      (SetCSRFToken (NewMiddleware true) [] [3] 7).1 ∧
    UnsetCSRFToken (NewMiddleware true) (UnsetCSRFToken (NewMiddleware true) []) ≠
      UnsetCSRFToken (NewMiddleware true) [] := by
  decide

/-- C12, amended. Repeated calls: for each of `SetToken`, `UnsetToken`, `SetCSRFToken`
and `UnsetCSRFToken`, a second call with the same arguments on the same response
adds the same instructions once more, and the medium that executes the response
ends with every slot as after a single call, the repeated instructions overwriting
the earlier ones. -/
theorem repeated_call_same_slots (m : middleware) (S : SlotState) (w : ResponseWriter)
    (T c : GoString) (expiry : Time) :
    (∃ added : List Cookie,
      (SetToken m w T expiry).1 = w ++ added ∧
      (SetToken m (SetToken m w T expiry).1 T expiry).1 = w ++ added ++ added ∧
      ∀ name : GoString,
        (S.receive (SetToken m (SetToken m w T expiry).1 T expiry).1).request.Cookie name =
          (S.receive (SetToken m w T expiry).1).request.Cookie name) ∧
    (∃ added : List Cookie,
      UnsetToken m w = w ++ added ∧
      UnsetToken m (UnsetToken m w) = w ++ added ++ added ∧
      ∀ name : GoString,
        (S.receive (UnsetToken m (UnsetToken m w))).request.Cookie name =
          (S.receive (UnsetToken m w)).request.Cookie name) ∧
    (∃ added : List Cookie,
      (SetCSRFToken m w c expiry).1 = w ++ added ∧
      (SetCSRFToken m (SetCSRFToken m w c expiry).1 c expiry).1 = w ++ added ++ added ∧
      ∀ name : GoString,
        (S.receive (SetCSRFToken m (SetCSRFToken m w c expiry).1 c expiry).1).request.Cookie
            name =
          (S.receive (SetCSRFToken m w c expiry).1).request.Cookie name) ∧
    (∃ added : List Cookie,
      UnsetCSRFToken m w = w ++ added ∧
      UnsetCSRFToken m (UnsetCSRFToken m w) = w ++ added ++ added ∧
      ∀ name : GoString,
        (S.receive (UnsetCSRFToken m (UnsetCSRFToken m w))).request.Cookie name =
          (S.receive (UnsetCSRFToken m w)).request.Cookie name) := by
  refine ⟨?_, ?_, ?_, ?_⟩
  · by_cases h : T.length ≤ maxCookieSize * NumCookies
    · refine ⟨(List.range (chunkCount T)).map (authSlot m expiry T), ?_, ?_, ?_⟩
      · rw [SetToken_accept m w T expiry h]
      · rw [SetToken_accept m w T expiry h, SetToken_accept m _ T expiry h]
      · intro name
        rw [SetToken_accept m w T expiry h, SetToken_accept m _ T expiry h]
        exact Cookie_receive_twice S w _ name
    · have h' := Nat.lt_of_not_le h
      refine ⟨[], ?_, ?_, ?_⟩
      · rw [SetToken_reject m w T expiry h', List.append_nil]
      · rw [SetToken_reject m w T expiry h', SetToken_reject m w T expiry h']
        simp
      · intro name
        rw [SetToken_reject m w T expiry h', SetToken_reject m w T expiry h']
  · refine ⟨(List.range NumCookies).map (unsetSlot m), UnsetToken_eq m w, ?_, ?_⟩
    · rw [UnsetToken_eq m w, UnsetToken_eq m _]
    · intro name
      rw [UnsetToken_eq m w, UnsetToken_eq m _]
      exact Cookie_receive_twice S w _ name
  · exact ⟨_, rfl, rfl, fun name => Cookie_receive_twice S w _ name⟩
  · exact ⟨_, rfl, rfl, fun name => Cookie_receive_twice S w _ name⟩

/-- C19, as stated, fails: of the non-empty token of the bytes 1, 2, 3 the one slot
written, its last, holds an empty value, since `http.SetCookie` drops control
bytes. -/
theorem SetToken_last_chunk_empty :
    ([1, 2, 3] : GoString) ≠ [] ∧
    (sentLines (SetToken (NewMiddleware true) [] [1, 2, 3] 64000000000000000000).1).map
      (fun l => l.Value.length) = [0] := by
  decide

/-- C19, amended. Chunk sizes: for every token `T` accepted by `SetToken`, all of whose
bytes are bytes a cookie value may hold, at least one slot is sent; the value of
every slot, as `net/http` reads it back, is a chunk of exactly 4000 bytes for
every slot but the last, and for a non-empty `T` of between 1 and 4000 bytes for
the last; and for the empty token exactly slot 0 is sent, with an empty value. -/
theorem SetToken_chunk_sizes (m : middleware) (w : ResponseWriter) (T : GoString)
    (expiry : Time) (h : T.length ≤ 60000) (hT : ∀ b ∈ T, validCookieValueByte b = true) :
    ∃ slots : List Cookie,
      SetToken m w T expiry = (w ++ slots, none) ∧
      1 ≤ slots.length ∧
      (sentLines slots).length = slots.length ∧
      (∀ i : Nat, i < slots.length →
        ∃ (l : SetCookieLine) (c : GoString), (sentLines slots)[i]? = some l ∧
          parseCookieValue l.Value = some c ∧
          (i + 1 < slots.length → c.length = 4000) ∧
          (T ≠ [] → i + 1 = slots.length → 1 ≤ c.length ∧ c.length ≤ 4000)) ∧
      (T = [] → sentLines slots =
        [{ Name := lit "skymarshal_auth0"
           Value := []
           Path := lit "/"
           Expires :=
             if validCookieExpires expiry then some (expiry / 1000000000 * 1000000000)
             else none
           MaxAge := none
           HttpOnly := true
           Secure := m.secureCookies }]) := by
  have h' : T.length ≤ maxCookieSize * NumCookies := by rw [capacity_eq]; exact h
  have hk := chunkCount_le T h'
  have hchunk : ∀ j, ((T.drop (maxCookieSize * j)).take maxCookieSize).filter
      validCookieValueByte = (T.drop (maxCookieSize * j)).take maxCookieSize := fun j =>
    List.filter_eq_self.mpr (fun b hb =>
      hT b (List.mem_of_mem_drop (List.mem_of_mem_take hb)))
  refine ⟨_, SetToken_accept m w T expiry h', ?_, ?_, ?_, ?_⟩
  · simpa using chunkCount_pos T
  · rw [sentLines_authSlots m expiry T _ hk]
    simp
  · intro i hi
    simp only [List.length_map, List.length_range] at hi ⊢
    refine ⟨authLine m expiry T i, (T.drop (maxCookieSize * i)).take maxCookieSize, ?_, ?_,
      ?_, ?_⟩
    · rw [sentLines_authSlots m expiry T _ hk]
      simp [List.getElem?_map, List.getElem?_range, hi]
    · have := parse_sanitize ((T.drop (maxCookieSize * i)).take maxCookieSize)
      rw [hchunk i] at this
      exact this
    · intro hlast
      simp only [List.length_take, List.length_drop]
      simp only [chunkCount, maxCookieSize] at hi hlast ⊢
      omega
    · intro hne hlast
      have hpos : 0 < T.length := List.length_pos.mpr hne
      simp only [List.length_take, List.length_drop]
      simp only [chunkCount, maxCookieSize] at hi hlast ⊢
      omega
  · intro hnil
    subst hnil
    have hk1 : chunkCount ([] : GoString) = 1 := by decide
    have hname : authCookieName ++ Itoa ((0 : Nat) : Int) = lit "skymarshal_auth0" := by
      decide
    rw [sentLines_authSlots m expiry [] _ hk, hk1]
    show [authLine m expiry [] 0] = _
    have hs : sanitizeCookieValue [] = [] := by decide
    simp only [authLine, List.drop_nil, List.take_nil, hname, hs]

set_option maxRecDepth 100000 in
theorem SetToken_chunk_sizes_witness :
    (lit "abc").length ≤ 60000 ∧
    ∃ slots : List Cookie,
      SetToken (NewMiddleware true) [] (lit "abc") 7 = ([] ++ slots, none) ∧
      1 ≤ slots.length :=
  ⟨by decide,
    (SetToken_chunk_sizes (NewMiddleware true) [] (lit "abc") 7 (by decide) (by decide)).imp
      (fun _ hs => ⟨hs.1, hs.2.1⟩)⟩

/-- C20. Slot names are unambiguous: the 15 credential slot names
`skymarshal_auth<i>`, `i` in 0..14, are pairwise distinct, and none of them is the
CSRF slot name `skymarshal_csrf`; these are the names the package uses. -/
theorem slot_names_unambiguous :
    authCookieName = lit "skymarshal_auth" ∧ csrfCookieName = lit "skymarshal_csrf" ∧
    NumCookies = 15 ∧
    (∀ i : Nat, i < 15 → ∀ j : Nat, j < 15 →
      lit "skymarshal_auth" ++ Itoa (i : Int) = lit "skymarshal_auth" ++ Itoa (j : Int) →
        i = j) ∧
    ((List.range 15).map (fun (i : Nat) => lit "skymarshal_auth" ++ Itoa (i : Int))).Nodup ∧
    (∀ i : Nat, i < 15 → lit "skymarshal_auth" ++ Itoa (i : Int) ≠ lit "skymarshal_csrf") := by
  refine ⟨rfl, rfl, rfl, authName_inj, ?_, fun i _ => authName_ne_csrf _⟩
  exact List.Nodup.map_on (fun i hi j hj hij =>
    authName_inj i (List.mem_range.mp hi) j (List.mem_range.mp hj) hij) (List.nodup_range 15)

end token

namespace skymarshal

open token (GoString byte lit middleware NewMiddleware)

/-! ## Lemmas on the composition -/

theorem handler_eq (dexServer skyHandler legacyServer : Handler) :
    NewServer.handler dexServer skyHandler legacyServer =
      { m := [⟨dexServer, lit "/sky/issuer/"⟩, ⟨skyHandler, lit "/sky/"⟩,
              ⟨legacyServer, lit "/auth/"⟩, ⟨legacyServer, lit "/login"⟩,
              ⟨legacyServer, lit "/logout"⟩]
        es := [⟨dexServer, lit "/sky/issuer/"⟩, ⟨legacyServer, lit "/auth/"⟩,
               ⟨skyHandler, lit "/sky/"⟩] } := by
  rfl

/-- The lookup of a path in the router of `NewServer`. -/
theorem handler_matchPath (dexServer skyHandler legacyServer : Handler) (path : GoString) :
    ((NewServer.handler dexServer skyHandler legacyServer).matchPath path).map muxEntry.h =
      if lit "/sky/issuer/" <+: path then some dexServer
      else if lit "/sky/" <+: path then some skyHandler
      else if lit "/auth/" <+: path ∨ path = lit "/login" ∨ path = lit "/logout" then
        some legacyServer
      else none := by
  have hA : lit "/sky/issuer/" = path → lit "/sky/issuer/" <+: path := by
    rintro rfl; exact List.prefix_refl _
  have hB : lit "/sky/" = path → lit "/sky/" <+: path ∧ ¬ lit "/sky/issuer/" <+: path := by
    rintro rfl; exact ⟨List.prefix_refl _, by decide⟩
  have hC : lit "/auth/" = path →
      lit "/auth/" <+: path ∧ ¬ lit "/sky/issuer/" <+: path ∧ ¬ lit "/sky/" <+: path := by
    rintro rfl; exact ⟨List.prefix_refl _, by decide, by decide⟩
  have hD : lit "/login" = path →
      ¬ lit "/sky/issuer/" <+: path ∧ ¬ lit "/sky/" <+: path := by
    rintro rfl; exact ⟨by decide, by decide⟩
  have hE : lit "/logout" = path →
      ¬ lit "/sky/issuer/" <+: path ∧ ¬ lit "/sky/" <+: path := by
    rintro rfl; exact ⟨by decide, by decide⟩
  have hx : lit "/sky/" <+: path → ¬ lit "/auth/" <+: path := by
    intro h2 h3
    have := List.prefix_of_prefix_length_le h2 h3 (by decide)
    revert this
    decide
  rw [handler_eq]
  simp only [ServeMux.matchPath, List.find?_cons, List.find?_nil, List.isPrefixOf_iff_prefix]
  by_cases h1 : lit "/sky/issuer/" = path
  · simp [h1, hA h1]
  by_cases h2 : lit "/sky/" = path
  · simp [h1, h2, hB h2]
  by_cases h3 : lit "/auth/" = path
  · simp [h1, h2, h3, hC h3]
  by_cases h4 : lit "/login" = path
  · have := hD h4
    subst h4
    simp [h1, h2, h3, this]
  by_cases h5 : lit "/logout" = path
  · have := hE h5
    subst h5
    simp [h1, h2, h3, h4, this]
  have h4' : ¬ path = lit "/login" := fun h => h4 h.symm
  have h5' : ¬ path = lit "/logout" := fun h => h5 h.symm
  have hb : ∀ q : GoString, ¬ q <+: path → q.isPrefixOf path = false := fun q hq =>
    Bool.eq_false_iff.mpr (fun h => hq (List.isPrefixOf_iff_prefix.mp h))
  have ht : ∀ q : GoString, q <+: path → q.isPrefixOf path = true := fun q hq =>
    List.isPrefixOf_iff_prefix.mpr hq
  by_cases p1 : lit "/sky/issuer/" <+: path
  · simp [h1, h2, h3, h4, h5, p1, ht _ p1]
  by_cases p3 : lit "/auth/" <+: path
  · have p2 : ¬ lit "/sky/" <+: path := fun h => hx h p3
    simp [h1, h2, h3, h4, h5, p1, p2, p3, hb _ p1, ht _ p3]
  by_cases p2 : lit "/sky/" <+: path
  · simp [h1, h2, h3, h4, h5, p1, p2, p3, hb _ p1, hb _ p3, ht _ p2]
  · simp [h1, h2, h3, h4, h5, p1, p2, p3, h4', h5', hb _ p1, hb _ p3, hb _ p2]

/-- What `NewServer` does once it has the signing key. -/
theorem NewServer_of_key (env : Env) (config : Config) (key : rsa.PrivateKey)
    (h : loadOrGenerateSigningKey env config.Flags.SigningKey = .ok key) :
    NewServer env config =
      match env.NewSkyServer (NewServer.skyConfig env config key) with
      | .error err => .error err
      | .ok skyServer =>
        match env.NewDexServer (NewServer.dexConfig env config key) with
        | .error err => .error err
        | .ok dexServer =>
          match env.NewLegacyServer (NewServer.legacyConfig env config) with
          | .error err => .error err
          | .ok legacyServer =>
            .ok { Handler :=
              NewServer.handler dexServer (env.NewSkyHandler skyServer) legacyServer } := by
  simp only [NewServer, h]

theorem hexDigit_inj : ∀ a, a < 16 → ∀ b, b < 16 → hexDigit a = hexDigit b → a = b := by
  decide

/-- The hexadecimal form determines the bytes. -/
theorem Sprintf_x_inj : ∀ (b c : GoString), Sprintf_x b = Sprintf_x c → b = c := by
  intro b
  induction b with
  | nil =>
    intro c h
    cases c with
    | nil => rfl
    | cons y c => simp [Sprintf_x] at h
  | cons x b ih =>
    intro c h
    cases c with
    | nil => simp [Sprintf_x] at h
    | cons y c =>
      simp only [Sprintf_x, List.flatMap_cons, List.cons_append, List.nil_append,
        List.cons.injEq] at h
      obtain ⟨h1, h2, h3⟩ := h
      have e1 := hexDigit_inj _ (by omega) _ (by omega) h1
      have e2 := hexDigit_inj _ (by omega) _ (by omega) h2
      have hxy : x = y := Fin.ext (by omega)
      rw [hxy, ih c h3]

/-! ### The dispatch of the router -/

theorem handler_patterns (dexServer skyHandler legacyServer : Handler) :
    (NewServer.handler dexServer skyHandler legacyServer).m.map muxEntry.pattern =
      [lit "/sky/issuer/", lit "/sky/", lit "/auth/", lit "/login", lit "/logout"] := by
  rfl

theorem handler_hosts (dexServer skyHandler legacyServer : Handler) :
    (NewServer.handler dexServer skyHandler legacyServer).hosts = false := by
  rfl

theorem any_pattern (mux : ServeMux) (x : GoString) :
    mux.m.any (fun e => e.pattern = x) = decide (x ∈ mux.m.map muxEntry.pattern) := by
  induction mux.m with
  | nil => simp
  | cons e es ih =>
    simp only [List.any_cons, ih, List.map_cons, List.mem_cons]
    by_cases h1 : e.pattern = x
    · simp [h1]
    · have h2 : ¬ x = e.pattern := fun h => h1 h.symm
      simp [h1, h2]

theorem patterns_head : ∀ P ∈ [lit "/sky/issuer/", lit "/sky/", lit "/auth/", lit "/login",
    lit "/logout"], P.head? = some 47 := by
  decide

/-- A host that does not begin with `/` adds nothing to the lookups of the router. -/
theorem host_append_mem (host x : GoString) (hhost : host.head? ≠ some 47)
    (h : host ++ x ∈ [lit "/sky/issuer/", lit "/sky/", lit "/auth/", lit "/login",
      lit "/logout"]) :
    x ∈ [lit "/sky/issuer/", lit "/sky/", lit "/auth/", lit "/login", lit "/logout"] := by
  by_cases hn : host = []
  · subst hn
    simpa using h
  · have := patterns_head _ h
    rw [List.head?_append_of_ne_nil _ hn] at this
    exact absurd this hhost

/-- The paths that lack the final `/` of a registered pattern. -/
theorem slash_mem_iff (path : GoString) :
    path ++ [47] ∈ [lit "/sky/issuer/", lit "/sky/", lit "/auth/", lit "/login",
      lit "/logout"] ↔
    path = lit "/sky/issuer" ∨ path = lit "/sky" ∨ path = lit "/auth" := by
  have e1 : lit "/sky/issuer/" = lit "/sky/issuer" ++ [47] := by decide
  have e2 : lit "/sky/" = lit "/sky" ++ [47] := by decide
  have e3 : lit "/auth/" = lit "/auth" ++ [47] := by decide
  constructor
  · intro h
    simp only [List.mem_cons, List.mem_singleton, List.not_mem_nil, or_false] at h
    rcases h with h | h | h | h | h
    · rw [e1] at h
      exact Or.inl (List.append_cancel_right h)
    · rw [e2] at h
      exact Or.inr (Or.inl (List.append_cancel_right h))
    · rw [e3] at h
      exact Or.inr (Or.inr (List.append_cancel_right h))
    · have := congrArg List.getLast? h
      rw [List.getLast?_concat] at this
      exact absurd this (by decide)
    · have := congrArg List.getLast? h
      rw [List.getLast?_concat] at this
      exact absurd this (by decide)
  · rintro (h | h | h) <;> subst h <;> decide

theorem handler_shouldRedirect (dexServer skyHandler legacyServer : Handler)
    (host path : GoString) (hhost : host.head? ≠ some 47) :
    (NewServer.handler dexServer skyHandler legacyServer).shouldRedirect host path =
      decide (path = lit "/sky/issuer" ∨ path = lit "/sky" ∨ path = lit "/auth") := by
  unfold ServeMux.shouldRedirect
  simp only [any_pattern, handler_patterns]
  have hc1 : ∀ x : GoString,
      (decide (x ∈ [lit "/sky/issuer/", lit "/sky/", lit "/auth/", lit "/login",
          lit "/logout"]) ||
        decide (host ++ x ∈ [lit "/sky/issuer/", lit "/sky/", lit "/auth/", lit "/login",
          lit "/logout"])) =
      decide (x ∈ [lit "/sky/issuer/", lit "/sky/", lit "/auth/", lit "/login",
        lit "/logout"]) := by
    intro x
    by_cases h : x ∈ [lit "/sky/issuer/", lit "/sky/", lit "/auth/", lit "/login",
        lit "/logout"]
    · simp only [h, decide_True, Bool.true_or]
    · have h' : ¬ host ++ x ∈ [lit "/sky/issuer/", lit "/sky/", lit "/auth/", lit "/login",
          lit "/logout"] := fun h' => h (host_append_mem host x hhost h')
      simp only [h, h', decide_False, Bool.or_false]
  rw [hc1 path, List.append_assoc, hc1 (path ++ [47])]
  by_cases hs : path = lit "/sky/issuer" ∨ path = lit "/sky" ∨ path = lit "/auth"
  · have hm := (slash_mem_iff path).mpr hs
    have hfacts : ¬ path ∈ [lit "/sky/issuer/", lit "/sky/", lit "/auth/", lit "/login",
          lit "/logout"] ∧ ¬ path.length = 0 ∧ (path.getLast? != some 47) = true := by
      rcases hs with h | h | h <;> subst h <;> decide
    simp only [hfacts.1, hfacts.2.1, hm, hs, decide_False, decide_True, if_true,
      Bool.false_eq_true, if_false, hfacts.2.2]
  · have hm : ¬ path ++ [47] ∈ [lit "/sky/issuer/", lit "/sky/", lit "/auth/", lit "/login",
          lit "/logout"] := fun h => hs ((slash_mem_iff path).mp h)
    simp only [hm, hs, decide_False, Bool.false_eq_true, if_false]
    split <;> [rfl; (split <;> rfl)]

theorem handler_handler (dexServer skyHandler legacyServer : Handler) (host path : GoString) :
    (NewServer.handler dexServer skyHandler legacyServer).handler host path =
      if lit "/sky/issuer/" <+: path then .registered dexServer
      else if lit "/sky/" <+: path then .registered skyHandler
      else if lit "/auth/" <+: path ∨ path = lit "/login" ∨ path = lit "/logout" then
        .registered legacyServer
      else .notFound := by
  have hm := handler_matchPath dexServer skyHandler legacyServer path
  unfold ServeMux.handler
  rw [handler_hosts]
  simp only [Bool.false_eq_true, if_false]
  cases hfind : (NewServer.handler dexServer skyHandler legacyServer).matchPath path with
  | none =>
    rw [hfind] at hm
    simp only [Option.map_none'] at hm
    by_cases p1 : lit "/sky/issuer/" <+: path
    · simp [p1] at hm
    · by_cases p2 : lit "/sky/" <+: path
      · simp [p1, p2] at hm
      · by_cases p3 : lit "/auth/" <+: path ∨ path = lit "/login" ∨ path = lit "/logout"
        · simp [p1, p2, p3] at hm
        · simp only [p1, p2, p3, if_false]
  | some e =>
    rw [hfind] at hm
    simp only [Option.map_some'] at hm
    by_cases p1 : lit "/sky/issuer/" <+: path
    · simp only [p1, if_true, Option.some.injEq] at hm ⊢
      rw [hm]
    · by_cases p2 : lit "/sky/" <+: path
      · simp only [p1, p2, if_true, if_false, Option.some.injEq] at hm ⊢
        rw [hm]
      · by_cases p3 : lit "/auth/" <+: path ∨ path = lit "/login" ∨ path = lit "/logout"
        · simp only [p1, p2, p3, if_true, if_false, Option.some.injEq] at hm ⊢
          rw [hm]
        · simp [p1, p2, p3] at hm

/-- The dispatch of the router of `NewServer`. -/
theorem handler_Handler (dexServer skyHandler legacyServer : Handler) (r : Request)
    (p : GoString) (hhost : r.Host.head? ≠ some 47)
    (hp : p = if r.Method = lit "CONNECT" then r.Path else cleanPath r.Path) :
    (NewServer.handler dexServer skyHandler legacyServer).Handler r =
      if p = lit "/sky/issuer" ∨ p = lit "/sky" ∨ p = lit "/auth" then .redirect (p ++ [47])
      else if p ≠ r.Path then .redirect p
      else if lit "/sky/issuer/" <+: r.Path then .registered dexServer
      else if lit "/sky/" <+: r.Path then .registered skyHandler
      else if lit "/auth/" <+: r.Path ∨ r.Path = lit "/login" ∨ r.Path = lit "/logout" then
        .registered legacyServer
      else .notFound := by
  unfold ServeMux.Handler
  by_cases hc : r.Method = lit "CONNECT"
  · rw [if_pos hc] at hp
    subst hp
    rw [if_pos hc, handler_shouldRedirect _ _ _ _ _ hhost, handler_handler]
    by_cases hs : r.Path = lit "/sky/issuer" ∨ r.Path = lit "/sky" ∨ r.Path = lit "/auth"
    · simp only [hs, decide_True, if_true]
    · simp only [hs, decide_False, Bool.false_eq_true, if_false, ne_eq, not_true_eq_false]
  · rw [if_neg hc] at hp
    subst hp
    rw [if_neg hc]
    simp only [handler_shouldRedirect _ _ _ _ _ hhost, handler_handler]
    by_cases hs : cleanPath r.Path = lit "/sky/issuer" ∨ cleanPath r.Path = lit "/sky" ∨
        cleanPath r.Path = lit "/auth"
    · simp only [hs, decide_True, if_true]
    · simp only [hs, decide_False, Bool.false_eq_true, if_false]

/-! ## The claims on the composition -/

/-- C13. Deterministic client secret: when a signing key is configured,
`loadOrGenerateSigningKey` returns that key unchanged, `NewServer` goes on with it,
and the secret of the primary client, as given to the login handler and as the
first entry of the client list of the issuer, is the hexadecimal form of the
SHA-256 digest of the bytes of the private exponent; so two compositions with the
same configured key give the same secret, whatever else the configurations and the
collaborators are. -/
theorem deterministic_client_secret (env env' : Env) (hS : env'.Sum256 = env.Sum256)
    (key : rsa.PrivateKey) (config config' : Config)
    (h : config.Flags.SigningKey = some { PrivateKey := some key })
    (h' : config'.Flags.SigningKey = some { PrivateKey := some key }) :
    loadOrGenerateSigningKey env config.Flags.SigningKey = .ok key ∧
    NewServer env config =
      (match env.NewSkyServer (NewServer.skyConfig env config key) with
      | .error err => .error err
      | .ok skyServer =>
        match env.NewDexServer (NewServer.dexConfig env config key) with
        | .error err => .error err
        | .ok dexServer =>
          match env.NewLegacyServer (NewServer.legacyConfig env config) with
          | .error err => .error err
          | .ok legacyServer =>
            .ok { Handler :=
              NewServer.handler dexServer (env.NewSkyHandler skyServer) legacyServer }) ∧
    (NewServer.skyConfig env config key).DexClientSecret =
      Sprintf_x (env.Sum256 (big.Int.Bytes key.D)) ∧
    ((NewServer.dexConfig env config key).Clients.map DexClient.ClientSecret).head? =
      some (Sprintf_x (env.Sum256 (big.Int.Bytes key.D))) ∧
    loadOrGenerateSigningKey env' config'.Flags.SigningKey = .ok key ∧
    (NewServer.skyConfig env' config' key).DexClientSecret =
      (NewServer.skyConfig env config key).DexClientSecret ∧
    ((NewServer.dexConfig env' config' key).Clients.map DexClient.ClientSecret).head? =
      ((NewServer.dexConfig env config key).Clients.map DexClient.ClientSecret).head? := by
  have hk : loadOrGenerateSigningKey env config.Flags.SigningKey = .ok key := by
    rw [h]; rfl
  have hk' : loadOrGenerateSigningKey env' config'.Flags.SigningKey = .ok key := by
    rw [h']; rfl
  refine ⟨hk, NewServer_of_key env config key hk, rfl, rfl, hk', ?_, ?_⟩
  · simp only [NewServer.skyConfig, NewServer.clientSecret, hS]
  · simp only [NewServer.dexConfig, NewServer.clientSecret, hS, List.map_cons, List.head?_cons]

theorem deterministic_client_secret_witness :
    (NewServer.skyConfig exampleEnv exampleConfig exampleKey).DexClientSecret =
      Sprintf_x (exampleEnv.Sum256 (big.Int.Bytes exampleKey.D)) :=
  (deterministic_client_secret exampleEnv exampleEnv rfl exampleKey exampleConfig
    exampleConfig rfl rfl).2.2.1

/-- C14, as stated, fails: two different signing keys, `33 = 3 * 11` and
`55 = 5 * 11` with the same exponents 3 and 7, get the same primary-client secret,
whatever the digest function is. -/
theorem same_exponent_same_secret :
    ({ N := 33, E := 3, D := 7, Primes := [3, 11] } : rsa.PrivateKey) ≠
      { N := 55, E := 3, D := 7, Primes := [5, 11] } ∧
    ∀ (env : Env) (config : Config),
      (NewServer.skyConfig env config
          { N := 33, E := 3, D := 7, Primes := [3, 11] }).DexClientSecret =
        (NewServer.skyConfig env config
          { N := 55, E := 3, D := 7, Primes := [5, 11] }).DexClientSecret :=
  ⟨by decide, fun _ _ => rfl⟩

/-- C14, amended. The secret follows the digest of the private exponent: for every two
signing keys the primary-client secrets differ exactly when the SHA-256 digests of
the bytes of their private exponents differ; keys with the same private exponent
get the same secret. -/
theorem client_secret_differs_iff (env : Env) (config : Config) (k1 k2 : rsa.PrivateKey) :
    ((NewServer.skyConfig env config k1).DexClientSecret ≠
        (NewServer.skyConfig env config k2).DexClientSecret ↔
      env.Sum256 (big.Int.Bytes k1.D) ≠ env.Sum256 (big.Int.Bytes k2.D)) ∧
    (k1.D = k2.D →
      (NewServer.skyConfig env config k1).DexClientSecret =
        (NewServer.skyConfig env config k2).DexClientSecret) := by
  constructor
  · simp only [NewServer.skyConfig, NewServer.clientSecret]
    constructor
    · intro hne heq
      exact hne (by rw [heq])
    · intro hne heq
      exact hne (Sprintf_x_inj _ _ heq)
  · intro hD
    simp only [NewServer.skyConfig, NewServer.clientSecret, hD]

/-- C15, as stated, fails: the router answers `/sky/issuer`, a path under `/sky/`, with
a redirect to `/sky/issuer/` and not through the login handler, and it answers
`/sky/issuer/../x`, `/sky//login` and `/auth/../login` with a redirect to the
cleaned path and not through a registered handler. -/
theorem router_redirects :
    NewServer exampleEnv exampleConfig =
      .ok (Server.mk (NewServer.handler { id := 3 } { id := 2 } { id := 4 })) ∧
    (NewServer.handler { id := 3 } { id := 2 } { id := 4 }).Handler
      { Method := lit "GET", Host := lit "ci.example.com", Path := lit "/sky/issuer" } =
        .redirect (lit "/sky/issuer/") ∧
    (NewServer.handler { id := 3 } { id := 2 } { id := 4 }).Handler
      { Method := lit "GET", Host := lit "ci.example.com", Path := lit "/sky/issuer/../x" } =
        .redirect (lit "/sky/x") ∧
    (NewServer.handler { id := 3 } { id := 2 } { id := 4 }).Handler
      { Method := lit "GET", Host := lit "ci.example.com", Path := lit "/sky//login" } =
        .redirect (lit "/sky/login") ∧
    (NewServer.handler { id := 3 } { id := 2 } { id := 4 }).Handler
      { Method := lit "GET", Host := lit "ci.example.com", Path := lit "/auth/../login" } =
        .redirect (lit "/login") :=
  ⟨rfl, by decide, by decide, by decide, by decide⟩

/-- C15, amended. Routing: when `NewServer` returns a server, its router looks at the
cleaned path of a request (at the path itself for `CONNECT`). It answers
`/sky/issuer`, `/sky` and `/auth` itself, with a redirect to the path with `/`
added, and a path that is not clean itself, with a redirect to the cleaned path.
Every other request runs the handler of its path: the issuer handler for every
path under `/sky/issuer/`, the login handler for every other path under `/sky/`,
the legacy handler for `/login`, `/logout` and every path under `/auth/`; and no
other path is matched by a registered handler. The host of the request does not
begin with `/`. -/
theorem NewServer_routing (env : Env) (config : Config) (s : Server)
    (h : NewServer env config = .ok s) :
    ∃ (key : rsa.PrivateKey) (skyServer : SkyServer) (dexServer legacyServer : Handler),
      loadOrGenerateSigningKey env config.Flags.SigningKey = .ok key ∧
      env.NewSkyServer (NewServer.skyConfig env config key) = .ok skyServer ∧
      env.NewDexServer (NewServer.dexConfig env config key) = .ok dexServer ∧
      env.NewLegacyServer (NewServer.legacyConfig env config) = .ok legacyServer ∧
      ∀ (r : Request) (p : GoString), r.Host.head? ≠ some 47 →
        p = (if r.Method = lit "CONNECT" then r.Path else cleanPath r.Path) →
        s.Handler.Handler r =
          if p = lit "/sky/issuer" ∨ p = lit "/sky" ∨ p = lit "/auth" then
            .redirect (p ++ [47])
          else if p ≠ r.Path then .redirect p
          else if lit "/sky/issuer/" <+: r.Path then .registered dexServer
          else if lit "/sky/" <+: r.Path then .registered (env.NewSkyHandler skyServer)
          else if lit "/auth/" <+: r.Path ∨ r.Path = lit "/login" ∨ r.Path = lit "/logout" then
            .registered legacyServer
          else .notFound := by
  unfold NewServer at h
  split at h
  · cases h
  · rename_i key hkey
    split at h
    · cases h
    · rename_i skyServer hsky
      split at h
      · cases h
      · rename_i dexServer hdex
        split at h
        · cases h
        · rename_i legacyServer hlegacy
          cases h
          exact ⟨key, skyServer, dexServer, legacyServer, hkey, hsky, hdex, hlegacy,
            fun r p hhost hp =>
              handler_Handler dexServer (env.NewSkyHandler skyServer) legacyServer r p hhost hp⟩

theorem NewServer_routing_witness :
    ∃ s : Server, NewServer exampleEnv exampleConfig = .ok s ∧
      s.Handler.Handler
        { Method := lit "GET", Host := lit "ci.example.com", Path := lit "/sky/issuer/foo" } =
          .registered { id := 3 } ∧
      s.Handler.Handler
        { Method := lit "GET", Host := lit "ci.example.com", Path := lit "/sky/anything" } =
          .registered { id := 2 } ∧
      s.Handler.Handler
        { Method := lit "GET", Host := lit "ci.example.com", Path := lit "/logout" } =
          .registered { id := 4 } ∧
      s.Handler.Handler
        { Method := lit "GET", Host := lit "ci.example.com", Path := lit "/other" } =
          .notFound := by
  refine ⟨_, rfl, ?_⟩
  obtain ⟨key, skyServer, dexServer, legacyServer, _, _, hdex, hlegacy, hpath⟩ :=
    NewServer_routing exampleEnv exampleConfig _ rfl
  cases hdex
  cases hlegacy
  have hs : exampleEnv.NewSkyHandler skyServer = { id := 2 } := rfl
  refine ⟨?_, ?_, ?_, ?_⟩
  · rw [hpath _ _ (by decide) rfl, hs]; decide
  · rw [hpath _ _ (by decide) rfl, hs]; decide
  · rw [hpath _ _ (by decide) rfl, hs]; decide
  · rw [hpath _ _ (by decide) rfl, hs]; decide

/-- C16. Fixed client table: whatever the configuration, once `NewServer` has the
signing key it calls the issuer constructor with a client list of exactly three
entries, in order `skymarshal` with the derived secret and the redirect URL
`externalURL + "/sky/callback"`, `fly` with the secret `Zmx5Cg==` and the same
redirect URL, and `client-id` with the secret `client-secret` and no redirect
URL; the issuer URL is `externalURL + "/sky/issuer"`. -/
theorem fixed_client_table (env : Env) (config : Config) (key : rsa.PrivateKey)
    (h : loadOrGenerateSigningKey env config.Flags.SigningKey = .ok key) :
    NewServer env config =
      (match env.NewSkyServer (NewServer.skyConfig env config key) with
      | .error err => .error err
      | .ok skyServer =>
        match env.NewDexServer (NewServer.dexConfig env config key) with
        | .error err => .error err
        | .ok dexServer =>
          match env.NewLegacyServer (NewServer.legacyConfig env config) with
          | .error err => .error err
          | .ok legacyServer =>
            .ok { Handler :=
              NewServer.handler dexServer (env.NewSkyHandler skyServer) legacyServer }) ∧
    (NewServer.dexConfig env config key).Clients =
      [ { ClientID := lit "skymarshal"
          ClientSecret := Sprintf_x (env.Sum256 (big.Int.Bytes key.D))
          RedirectURL := config.ExternalURL ++ lit "/sky/callback" },
        { ClientID := lit "fly"
          ClientSecret := lit "Zmx5Cg=="
          RedirectURL := config.ExternalURL ++ lit "/sky/callback" },
        { ClientID := lit "client-id"
          ClientSecret := lit "client-secret"
          RedirectURL := [] } ] ∧
    (NewServer.dexConfig env config key).IssuerURL = config.ExternalURL ++ lit "/sky/issuer" :=
  ⟨NewServer_of_key env config key h, rfl, rfl⟩

theorem fixed_client_table_witness :
    (NewServer.dexConfig exampleEnv exampleConfig exampleKey).Clients.map DexClient.ClientID =
      [lit "skymarshal", lit "fly", lit "client-id"] ∧
    (NewServer.dexConfig exampleEnv exampleConfig exampleKey).IssuerURL =
      lit "https://ci.example.com/sky/issuer" := by
  have := fixed_client_table exampleEnv exampleConfig exampleKey rfl
  refine ⟨?_, ?_⟩
  · rw [this.2.1]; rfl
  · rw [this.2.2]; decide

/-- C17. All-or-nothing composition: `NewServer` returns a server exactly when
obtaining the signing key and constructing the login, issuer and legacy handlers
all succeed, and the server is then the router over these handlers; when one of
the steps fails, the ones before it having succeeded, `NewServer` returns the
error of that step unchanged, and no server. -/
theorem NewServer_all_or_nothing (env : Env) (config : Config) :
    ((∃ s : Server, NewServer env config = .ok s) ↔
      ∃ (key : rsa.PrivateKey) (skyServer : SkyServer) (dexServer legacyServer : Handler),
        loadOrGenerateSigningKey env config.Flags.SigningKey = .ok key ∧
        env.NewSkyServer (NewServer.skyConfig env config key) = .ok skyServer ∧
        env.NewDexServer (NewServer.dexConfig env config key) = .ok dexServer ∧
        env.NewLegacyServer (NewServer.legacyConfig env config) = .ok legacyServer) ∧
    (∀ (key : rsa.PrivateKey) (skyServer : SkyServer) (dexServer legacyServer : Handler),
      loadOrGenerateSigningKey env config.Flags.SigningKey = .ok key →
      env.NewSkyServer (NewServer.skyConfig env config key) = .ok skyServer →
      env.NewDexServer (NewServer.dexConfig env config key) = .ok dexServer →
      env.NewLegacyServer (NewServer.legacyConfig env config) = .ok legacyServer →
      NewServer env config = .ok (Server.mk
        (NewServer.handler dexServer (env.NewSkyHandler skyServer) legacyServer))) ∧
    (∀ err : error,
      loadOrGenerateSigningKey env config.Flags.SigningKey = .error err →
      NewServer env config = .error err) ∧
    (∀ (key : rsa.PrivateKey) (err : error),
      loadOrGenerateSigningKey env config.Flags.SigningKey = .ok key →
      env.NewSkyServer (NewServer.skyConfig env config key) = .error err →
      NewServer env config = .error err) ∧
    (∀ (key : rsa.PrivateKey) (skyServer : SkyServer) (err : error),
      loadOrGenerateSigningKey env config.Flags.SigningKey = .ok key →
      env.NewSkyServer (NewServer.skyConfig env config key) = .ok skyServer →
      env.NewDexServer (NewServer.dexConfig env config key) = .error err →
      NewServer env config = .error err) ∧
    (∀ (key : rsa.PrivateKey) (skyServer : SkyServer) (dexServer : Handler) (err : error),
      loadOrGenerateSigningKey env config.Flags.SigningKey = .ok key →
      env.NewSkyServer (NewServer.skyConfig env config key) = .ok skyServer →
      env.NewDexServer (NewServer.dexConfig env config key) = .ok dexServer →
      env.NewLegacyServer (NewServer.legacyConfig env config) = .error err →
      NewServer env config = .error err) := by
  have hok : ∀ (key : rsa.PrivateKey) (skyServer : SkyServer) (dexServer legacyServer : Handler),
      loadOrGenerateSigningKey env config.Flags.SigningKey = .ok key →
      env.NewSkyServer (NewServer.skyConfig env config key) = .ok skyServer →
      env.NewDexServer (NewServer.dexConfig env config key) = .ok dexServer →
      env.NewLegacyServer (NewServer.legacyConfig env config) = .ok legacyServer →
      NewServer env config = .ok (Server.mk
        (NewServer.handler dexServer (env.NewSkyHandler skyServer) legacyServer)) := by
    intro key skyServer dexServer legacyServer h1 h2 h3 h4
    simp only [NewServer, h1, h2, h3, h4]
  refine ⟨⟨?_, ?_⟩, hok, ?_, ?_, ?_, ?_⟩
  · rintro ⟨s, hs⟩
    unfold NewServer at hs
    split at hs
    · cases hs
    · rename_i key hkey
      split at hs
      · cases hs
      · rename_i skyServer hsky
        split at hs
        · cases hs
        · rename_i dexServer hdex
          split at hs
          · cases hs
          · rename_i legacyServer hlegacy
            exact ⟨key, skyServer, dexServer, legacyServer, hkey, hsky, hdex, hlegacy⟩
  · rintro ⟨key, skyServer, dexServer, legacyServer, h1, h2, h3, h4⟩
    exact ⟨_, hok key skyServer dexServer legacyServer h1 h2 h3 h4⟩
  · intro err h1
    simp only [NewServer, h1]
  · intro key err h1 h2
    simp only [NewServer, h1, h2]
  · intro key skyServer err h1 h2 h3
    simp only [NewServer, h1, h2, h3]
  · intro key skyServer dexServer err h1 h2 h3 h4
    simp only [NewServer, h1, h2, h3, h4]

theorem NewServer_all_or_nothing_witness :
    NewServer { exampleEnv with NewDexServer := fun _ => .error (lit "no storage") }
      exampleConfig = .error (lit "no storage") :=
  (NewServer_all_or_nothing { exampleEnv with NewDexServer := fun _ => .error (lit "no storage") }
    exampleConfig).2.2.2.2.1 exampleKey { id := 1 } (lit "no storage") rfl rfl rfl

end skymarshal
